import Mathlib

/-!
Verification of the `mm_doc_proc` multimodal document ingestion pipeline.

This file contains a shallow embedding of the parts of the repository that the
verified claims are about, together with theorems settling the claims:

* blob-storage name sanitization (`src/storage/azure_blob_storage.py`),
* the pipeline state machine and page orchestration
  (`src/multimodal_processing_pipeline/pdf_ingestion_pipeline.py`),
* the document data model and its save/load operations
  (`src/multimodal_processing_pipeline/data_models.py`),
* the search-unit projection, hybrid search and wide search
  (`src/search/azure_ai_index_builder.py`).

Python strings are modelled as Lean `String`/`List Char`; the filesystem as a
finite map from path strings to contents; external services (LLM calls, the
Azure search service, disk reads performed on resume) as oracle parameters.
Fallible Python code is modelled with `Except PyError`.
-/

namespace MmDocProc

/-- Python exceptions that the modelled code can raise. -/
inductive PyError where
  | nameError
  | attributeError
  | jsonDecodeError
  | fileNotFoundError
  | valueError
deriving DecidableEq, Repr

/-! ## Name sanitization (`src/storage/azure_blob_storage.py`, lines 63-128)

`_safe_container_name` and `_safe_blob_name` are pure string pipelines; we
model them character-list by character-list.  Python's Unicode-aware
`str.lower` is modelled by ASCII lowercasing: on characters outside ASCII the
two can differ (for example U+212A), but every such character is mapped to
`-` by the subsequent `[^a-z0-9-]` replacement in both readings, except for
exotic case-foldings into ASCII which the claims do not exercise. -/

/-- Valid container-name characters: the regex class `[a-z0-9-]`
(`azure_blob_storage.py` line 81). -/
def validChar (c : Char) : Bool :=
  decide ((97 ≤ c.toNat ∧ c.toNat ≤ 122) ∨ (48 ≤ c.toNat ∧ c.toNat ≤ 57) ∨ c.toNat = 45)

/-- ASCII model of Python `str.lower` (step 1, line 75). -/
def pyLowerChar (c : Char) : Char :=
  if 65 ≤ c.toNat ∧ c.toNat ≤ 90 then Char.ofNat (c.toNat + 32) else c

/-- Step 2 (line 78): `name.replace("_", "-")`. -/
def underscoreToHyphen (c : Char) : Char :=
  if c = '_' then '-' else c

/-- Step 3 (line 81): `re.sub(r"[^a-z0-9-]", "-", name)`. -/
def replaceInvalidChar (c : Char) : Char :=
  if validChar c then c else '-'

/-- Step 4 (line 84): `re.sub(r"-+", "-", name)` collapses every run of
hyphens to a single hyphen. -/
def collapseHyphens : List Char → List Char
  | [] => []
  | [c] => [c]
  | a :: b :: rest =>
    if a = '-' ∧ b = '-' then collapseHyphens (b :: rest)
    else a :: collapseHyphens (b :: rest)

/-- Removal of a maximal run of characters satisfying `p` from the end of the
list; models the `while` loop of lines 91-92 (trailing hyphens) and the regex
`[./\\]+$` of line 119 (trailing dots/slashes/backslashes). -/
def dropTrailing (p : Char → Bool) : List Char → List Char
  | [] => []
  | c :: rest =>
    let t := dropTrailing p rest
    if t.isEmpty ∧ p c then [] else c :: t

/-- Step 7 (lines 95-96): `if len(name) < 3: name = (name + "aaa")[:3]`. -/
def padToThree (l : List Char) : List Char :=
  if l.length < 3 then (l ++ ['a', 'a', 'a']).take 3 else l

/-- Truncation `if len(name) > n: name = name[:n]` (line 99-100 with `n = 63`,
line 122-123 with `n = 1024`). -/
def truncateTo (n : Nat) (l : List Char) : List Char :=
  if n < l.length then l.take n else l

/-- Character-list body of `AzureBlobStorage._safe_container_name`
(`azure_blob_storage.py` lines 63-102), with the steps in source order. -/
def safeContainerNameL (l : List Char) : List Char :=
  truncateTo 63 <| padToThree <|
    dropTrailing (fun c => c = '-') <|
      (collapseHyphens (((l.map pyLowerChar).map underscoreToHyphen).map
        replaceInvalidChar)).dropWhile (fun c => c = '-')

/-- `AzureBlobStorage._safe_container_name`. -/
def safeContainerName (s : String) : String :=
  ⟨safeContainerNameL s.data⟩

/-- Control characters removed by `_safe_blob_name` step 1 (line 116):
the regex `[\x00-\x1F\x7F]`. -/
def isCtrlChar (c : Char) : Bool :=
  decide (c.toNat ≤ 31 ∨ c.toNat = 127)

/-- Characters stripped from the end by `_safe_blob_name` step 2 (line 119). -/
def isTrailingStripChar (c : Char) : Bool :=
  c = '.' ∨ c = '/' ∨ c = '\\'

/-- Character-list body of `AzureBlobStorage._safe_blob_name`
(`azure_blob_storage.py` lines 104-128). -/
def safeBlobNameL (l : List Char) : List Char :=
  let s3 := truncateTo 1024 (dropTrailing isTrailingStripChar
    (l.filter (fun c => !isCtrlChar c)))
  if s3.isEmpty then "unnamed-blob".data else s3

/-- `AzureBlobStorage._safe_blob_name`. -/
def safeBlobName (s : String) : String :=
  ⟨safeBlobNameL s.data⟩

/-- Container-name pipeline written from the words of the specification:
"lowercasing, replacing underscores and every character outside `[a-z0-9-]`
with `-`, collapsing runs of `-` to a single `-`, trimming leading and
trailing `-`, padding with `a` up to length 3 when shorter, and truncating to
at most 63 characters". -/
def containerNameSpecL (l : List Char) : List Char :=
  let replaced := (l.map pyLowerChar).map (fun c => if validChar c then c else '-')
  let trimmed := dropTrailing (fun c => c = '-')
    ((collapseHyphens replaced).dropWhile (fun c => c = '-'))
  (trimmed ++ List.replicate (3 - trimmed.length) 'a').take 63

/-- Specification-side container-name sanitizer. -/
def containerNameSpec (s : String) : String :=
  ⟨containerNameSpecL s.data⟩

example : safeContainerName "My_Container" = "my-container" := by decide
example : safeContainerName "" = "aaa" := by decide
example : safeContainerName "--a--" = "aaa" := by decide
example : safeBlobName "abc./" = "abc" := by decide
example : safeBlobName "..." = "unnamed-blob" := by decide

/-! ### Sanitization lemmas -/

theorem validChar_replaceInvalidChar (c : Char) :
    validChar (replaceInvalidChar c) = true := by
  unfold replaceInvalidChar
  by_cases h : validChar c = true
  · simp [h]
  · simp [h]
    decide

theorem pyLowerChar_eq_self {c : Char} (h : validChar c = true) :
    pyLowerChar c = c := by
  simp only [validChar, decide_eq_true_eq] at h
  rw [pyLowerChar, if_neg (by omega)]

theorem underscoreToHyphen_eq_self {c : Char} (h : validChar c = true) :
    underscoreToHyphen c = c := by
  rw [underscoreToHyphen, if_neg]
  intro e
  subst e
  exact absurd h (by decide)

theorem replaceInvalidChar_eq_self {c : Char} (h : validChar c = true) :
    replaceInvalidChar c = c := by
  rw [replaceInvalidChar, if_pos h]

theorem map_eq_self_of_forall {α : Type} {f : α → α} :
    ∀ {l : List α}, (∀ a ∈ l, f a = a) → l.map f = l
  | [], _ => rfl
  | a :: l, h => by
    simp only [List.map_cons, h a (by simp)]
    rw [map_eq_self_of_forall (fun b hb => h b (by simp [hb]))]

/-- Pairs of adjacent characters allowed after hyphen-run collapsing. -/
def hyOkPair (a b : Char) : Bool :=
  !(decide (a = '-') && decide (b = '-'))

/-- Absence of a run of two or more consecutive hyphens. -/
def noHyRun : List Char → Bool
  | a :: b :: rest => hyOkPair a b && noHyRun (b :: rest)
  | _ => true

theorem noHyRun_tail {a : Char} {l : List Char} (h : noHyRun (a :: l) = true) :
    noHyRun l = true := by
  cases l with
  | nil => rfl
  | cons b r =>
    rw [noHyRun, Bool.and_eq_true] at h
    exact h.2

theorem collapseHyphens_head? : ∀ l : List Char, (collapseHyphens l).head? = l.head?
  | [] => rfl
  | [c] => rfl
  | a :: b :: rest => by
    rw [collapseHyphens]
    split
    · rename_i h
      rw [collapseHyphens_head? (b :: rest)]
      simp [h.1, h.2]
    · rfl

theorem collapseHyphens_sublist : ∀ l : List Char, List.Sublist (collapseHyphens l) l
  | [] => List.Sublist.refl []
  | [c] => List.Sublist.refl [c]
  | a :: b :: rest => by
    rw [collapseHyphens]
    split
    · exact (collapseHyphens_sublist (b :: rest)).cons a
    · exact (collapseHyphens_sublist (b :: rest)).cons₂ a

theorem noHyRun_collapseHyphens : ∀ l : List Char, noHyRun (collapseHyphens l) = true
  | [] => rfl
  | [c] => rfl
  | a :: b :: rest => by
    rw [collapseHyphens]
    split
    · exact noHyRun_collapseHyphens (b :: rest)
    · rename_i h
      have hh := collapseHyphens_head? (b :: rest)
      have ih := noHyRun_collapseHyphens (b :: rest)
      cases he : collapseHyphens (b :: rest) with
      | nil => rfl
      | cons x xs =>
        rw [he] at hh ih
        simp only [List.head?_cons, Option.some.injEq] at hh
        subst hh
        rw [noHyRun, Bool.and_eq_true]
        refine ⟨?_, ih⟩
        simp only [hyOkPair, Bool.not_eq_true']
        by_cases ha : a = '-'
        · by_cases hb : x = '-'
          · exact absurd ⟨ha, hb⟩ h
          · simp [hb]
        · simp [ha]

theorem collapseHyphens_eq_self : ∀ {l : List Char}, noHyRun l = true → collapseHyphens l = l
  | [], _ => rfl
  | [c], _ => rfl
  | a :: b :: rest, h => by
    rw [noHyRun, Bool.and_eq_true] at h
    rw [collapseHyphens, if_neg, collapseHyphens_eq_self h.2]
    intro hc
    have := h.1
    simp [hyOkPair, hc.1, hc.2] at this

theorem noHyRun_take : ∀ (n : Nat) {l : List Char}, noHyRun l = true → noHyRun (l.take n) = true := by
  intro n l
  induction l generalizing n with
  | nil => intro _; simp [noHyRun]
  | cons a m ih =>
    intro h
    cases n with
    | zero => rfl
    | succ n =>
      rw [List.take_succ_cons]
      cases m with
      | nil => rw [List.take_nil]; rfl
      | cons b r =>
        cases n with
        | zero => rfl
        | succ n =>
          rw [List.take_succ_cons, noHyRun, Bool.and_eq_true]
          rw [noHyRun, Bool.and_eq_true] at h
          refine ⟨h.1, ?_⟩
          have := ih (n + 1) h.2
          rwa [List.take_succ_cons] at this

theorem noHyRun_dropWhile (p : Char → Bool) :
    ∀ {l : List Char}, noHyRun l = true → noHyRun (l.dropWhile p) = true
  | [], _ => rfl
  | a :: m, h => by
    rw [List.dropWhile_cons]
    split
    · exact noHyRun_dropWhile p (noHyRun_tail h)
    · exact h

theorem dropTrailing_eq_take (p : Char → Bool) :
    ∀ l : List Char, ∃ n, dropTrailing p l = l.take n
  | [] => ⟨0, rfl⟩
  | c :: rest => by
    obtain ⟨n, hn⟩ := dropTrailing_eq_take p rest
    rw [dropTrailing]
    split
    · exact ⟨0, rfl⟩
    · exact ⟨n + 1, by rw [List.take_succ_cons, hn]⟩

theorem noHyRun_dropTrailing (p : Char → Bool) {l : List Char} (h : noHyRun l = true) :
    noHyRun (dropTrailing p l) = true := by
  obtain ⟨n, hn⟩ := dropTrailing_eq_take p l
  rw [hn]
  exact noHyRun_take n h

theorem dropTrailing_sublist (p : Char → Bool) (l : List Char) :
    List.Sublist (dropTrailing p l) l := by
  obtain ⟨n, hn⟩ := dropTrailing_eq_take p l
  rw [hn]
  exact List.take_sublist n l

theorem head?_dropWhile {p : Char → Bool} :
    ∀ {l : List Char} {c : Char}, (l.dropWhile p).head? = some c → p c = false
  | [], c => by simp
  | a :: m, c => by
    rw [List.dropWhile_cons]
    split
    · exact head?_dropWhile
    · rename_i hp
      intro h
      simp only [List.head?_cons, Option.some.injEq] at h
      subst h
      exact Bool.not_eq_true _ ▸ hp

theorem dropTrailing_head? (p : Char → Bool) {l : List Char} {a : Char}
    (h : l.head? = some a) :
    dropTrailing p l = [] ∨ (dropTrailing p l).head? = some a := by
  cases l with
  | nil => simp at h
  | cons c rest =>
    simp only [List.head?_cons, Option.some.injEq] at h
    subst h
    rw [dropTrailing]
    split
    · exact Or.inl rfl
    · exact Or.inr rfl

theorem getLast?_dropTrailing {p : Char → Bool} :
    ∀ {l : List Char} {c : Char}, (dropTrailing p l).getLast? = some c → p c = false
  | [], c => by simp [dropTrailing]
  | x :: rest, c => by
    rw [dropTrailing]
    split
    · simp
    · rename_i hcond
      cases ht : dropTrailing p rest with
      | nil =>
        intro h
        simp only [List.getLast?_singleton, Option.some.injEq] at h
        subst h
        rw [ht] at hcond
        simp only [List.isEmpty_nil, true_and] at hcond
        exact Bool.not_eq_true _ ▸ hcond
      | cons y ys =>
        rw [List.getLast?_cons_cons]
        intro h
        exact getLast?_dropTrailing (ht ▸ h)

theorem dropTrailing_eq_self {p : Char → Bool} :
    ∀ {l : List Char}, (∀ c, l.getLast? = some c → p c = false) → dropTrailing p l = l
  | [], _ => rfl
  | x :: rest, h => by
    rw [dropTrailing]
    cases rest with
    | nil =>
      have hx := h x (by simp)
      simp [dropTrailing, hx]
    | cons y ys =>
      have hrest : dropTrailing p (y :: ys) = y :: ys :=
        dropTrailing_eq_self (fun c hc => h c (by rw [List.getLast?_cons_cons]; exact hc))
      rw [hrest]
      simp

theorem dropWhile_eq_self {p : Char → Bool} {l : List Char}
    (h : ∀ c, l.head? = some c → p c = false) : l.dropWhile p = l := by
  cases l with
  | nil => rfl
  | cons a m =>
    rw [List.dropWhile_cons, if_neg]
    simp [h a rfl]

theorem three_le_padToThree_length (l : List Char) : 3 ≤ (padToThree l).length := by
  rw [padToThree]
  split
  · rename_i h
    rw [List.length_take, List.length_append]
    simp
  · omega

theorem padToThree_length_le {l : List Char} (h : l.length ≤ 63) :
    (padToThree l).length ≤ 63 := by
  rw [padToThree]
  split
  · rename_i hlt
    rw [List.length_take]
    omega
  · exact h

theorem truncateTo_length_le (n : Nat) (l : List Char) :
    (truncateTo n l).length ≤ n := by
  rw [truncateTo]
  split <;> rename_i hc
  · rw [List.length_take]; omega
  · omega

theorem three_le_truncateTo63_length {l : List Char} (h : 3 ≤ l.length) :
    3 ≤ (truncateTo 63 l).length := by
  rw [truncateTo]
  split <;> rename_i hc
  · rw [List.length_take]; omega
  · exact h

theorem truncateTo_eq_self {n : Nat} {l : List Char} (h : l.length ≤ n) :
    truncateTo n l = l := by
  rw [truncateTo, if_neg]
  omega

theorem padToThree_eq_self {l : List Char} (h : 3 ≤ l.length) :
    padToThree l = l := by
  rw [padToThree, if_neg]
  omega

theorem noHyRun_padToThree {l : List Char} (h : noHyRun l = true) :
    noHyRun (padToThree l) = true := by
  rw [padToThree]
  split
  · rename_i hlt
    refine noHyRun_take 3 ?_
    match l, hlt with
    | [], _ => decide
    | [x], _ =>
      show noHyRun [x, 'a', 'a', 'a'] = true
      simp [noHyRun, hyOkPair]
    | [x, y], _ =>
      show noHyRun [x, y, 'a', 'a', 'a'] = true
      rw [noHyRun, Bool.and_eq_true] at h ⊢
      refine ⟨h.1, ?_⟩
      simp [noHyRun, hyOkPair]
  · exact h

theorem padToThree_head? {l : List Char} {c : Char}
    (h : (padToThree l).head? = some c) : l.head? = some c ∨ c = 'a' := by
  rw [padToThree] at h
  split at h
  · cases l with
    | nil => right; simpa using h.symm
    | cons x m =>
      left
      rw [List.cons_append, List.take_succ_cons, List.head?_cons] at h
      simpa using h
  · exact Or.inl h

theorem truncateTo_head? {n : Nat} {l : List Char} {c : Char}
    (h : (truncateTo n l).head? = some c) : l.head? = some c := by
  rw [truncateTo] at h
  split at h
  · cases l with
    | nil => simp at h
    | cons x m =>
      cases n with
      | zero => simp at h
      | succ n => rw [List.take_succ_cons, List.head?_cons] at h; simpa using h
  · exact h

theorem allValid_of_sublist {l m : List Char} (hs : List.Sublist l m)
    (h : m.all validChar = true) : l.all validChar = true := by
  rw [List.all_eq_true] at h ⊢
  exact fun c hc => h c (hs.subset hc)

theorem all_of_sublist {p : Char → Bool} {l m : List Char} (hs : List.Sublist l m)
    (h : m.all p = true) : l.all p = true := by
  rw [List.all_eq_true] at h ⊢
  exact fun c hc => h c (hs.subset hc)

theorem truncateTo_sublist (n : Nat) (l : List Char) :
    List.Sublist (truncateTo n l) l := by
  rw [truncateTo]
  split
  · exact List.take_sublist n l
  · exact List.Sublist.refl l

theorem noHyRun_truncateTo (n : Nat) {l : List Char} (h : noHyRun l = true) :
    noHyRun (truncateTo n l) = true := by
  rw [truncateTo]
  split
  · exact noHyRun_take n h
  · exact h

theorem head?_dropTrailing {p : Char → Bool} :
    ∀ {l : List Char} {c : Char}, (dropTrailing p l).head? = some c → l.head? = some c
  | [], c => by simp [dropTrailing]
  | x :: rest, c => by
    rw [dropTrailing]
    split
    · simp
    · intro h
      simpa using h

/-- Structural facts about `_safe_container_name` output: character set,
no hyphen runs, length bounds, and no leading hyphen. -/
theorem safeContainerNameL_facts (l : List Char) :
    (safeContainerNameL l).all validChar = true ∧
    noHyRun (safeContainerNameL l) = true ∧
    3 ≤ (safeContainerNameL l).length ∧
    (safeContainerNameL l).length ≤ 63 ∧
    (∀ c, (safeContainerNameL l).head? = some c → c ≠ '-') := by
  have h3 : (((l.map pyLowerChar).map underscoreToHyphen).map replaceInvalidChar).all
      validChar = true := by
    rw [List.all_eq_true]
    intro c hc
    obtain ⟨b, _, rfl⟩ := List.mem_map.mp hc
    exact validChar_replaceInvalidChar b
  set s3 := ((l.map pyLowerChar).map underscoreToHyphen).map replaceInvalidChar with hs3
  set s4 := collapseHyphens s3 with hs4
  set s5 := s4.dropWhile (fun c => c = '-') with hs5
  set s6 := dropTrailing (fun c => c = '-') s5 with hs6
  set s7 := padToThree s6 with hs7
  have h4 : s4.all validChar = true := allValid_of_sublist (collapseHyphens_sublist s3) h3
  have h5 : s5.all validChar = true := allValid_of_sublist (List.dropWhile_sublist _) h4
  have h6 : s6.all validChar = true := allValid_of_sublist (dropTrailing_sublist _ _) h5
  have h7 : s7.all validChar = true := by
    rw [hs7, padToThree]
    split
    · refine allValid_of_sublist (List.take_sublist _ _) ?_
      rw [List.all_append, Bool.and_eq_true]
      exact ⟨h6, by decide⟩
    · exact h6
  have hr4 : noHyRun s4 = true := noHyRun_collapseHyphens s3
  have hr5 : noHyRun s5 = true := noHyRun_dropWhile _ hr4
  have hr6 : noHyRun s6 = true := noHyRun_dropTrailing _ hr5
  have hr7 : noHyRun s7 = true := noHyRun_padToThree hr6
  have hh5 : ∀ c, s5.head? = some c → c ≠ '-' := by
    intro c hc hcontra
    subst hcontra
    have := head?_dropWhile (l := s4) (p := fun c => decide (c = '-')) hc
    simp at this
  have hh6 : ∀ c, s6.head? = some c → c ≠ '-' := fun c hc =>
    hh5 c (head?_dropTrailing hc)
  have hh7 : ∀ c, s7.head? = some c → c ≠ '-' := by
    intro c hc
    rcases padToThree_head? hc with h | h
    · exact hh6 c h
    · subst h; decide
  refine ⟨?_, ?_, ?_, ?_, ?_⟩
  · exact allValid_of_sublist (truncateTo_sublist _ _) h7
  · exact noHyRun_truncateTo _ hr7
  · exact three_le_truncateTo63_length (three_le_padToThree_length s6)
  · exact truncateTo_length_le _ _
  · intro c hc
    exact hh7 c (truncateTo_head? hc)

/-- Second application of `_safe_container_name` is the identity provided the
first output does not end in a hyphen (which can only happen when truncation
to 63 characters cuts directly after a hyphen). -/
theorem safeContainerNameL_idem {l : List Char}
    (h : (safeContainerNameL l).getLast? ≠ some '-') :
    safeContainerNameL (safeContainerNameL l) = safeContainerNameL l := by
  obtain ⟨hall, hrun, hlen3, hlen63, hhead⟩ := safeContainerNameL_facts l
  set y := safeContainerNameL l with hy
  have hvalid : ∀ c ∈ y, validChar c = true := List.all_eq_true.mp hall
  have hmap1 : y.map pyLowerChar = y :=
    map_eq_self_of_forall (fun c hc => pyLowerChar_eq_self (hvalid c hc))
  have hmap2 : y.map underscoreToHyphen = y :=
    map_eq_self_of_forall (fun c hc => underscoreToHyphen_eq_self (hvalid c hc))
  have hmap3 : y.map replaceInvalidChar = y :=
    map_eq_self_of_forall (fun c hc => replaceInvalidChar_eq_self (hvalid c hc))
  show truncateTo 63 (padToThree (dropTrailing (fun c => c = '-')
    ((collapseHyphens ((((y.map pyLowerChar).map underscoreToHyphen)).map
      replaceInvalidChar)).dropWhile (fun c => c = '-')))) = y
  rw [hmap1, hmap2, hmap3, collapseHyphens_eq_self hrun]
  rw [dropWhile_eq_self (by
    intro c hc
    simp only [decide_eq_false_iff_not]
    exact hhead c hc)]
  rw [dropTrailing_eq_self (by
    intro c hc
    simp only [decide_eq_false_iff_not]
    intro hcontra
    subst hcontra
    exact h hc)]
  rw [padToThree_eq_self hlen3, truncateTo_eq_self hlen63]

/-- Structural facts about `_safe_blob_name` output: no control characters,
length bound, non-emptiness. -/
theorem safeBlobNameL_facts (l : List Char) :
    (safeBlobNameL l).all (fun c => !isCtrlChar c) = true ∧
    (safeBlobNameL l).length ≤ 1024 ∧
    safeBlobNameL l ≠ [] := by
  have h1 : (l.filter (fun c => !isCtrlChar c)).all (fun c => !isCtrlChar c) = true := by
    rw [List.all_eq_true]
    intro c hc
    exact (List.mem_filter.mp hc).2
  rw [safeBlobNameL]
  simp only []
  split <;> rename_i hcond
  · exact ⟨by decide, by decide, by decide⟩
  · refine ⟨?_, truncateTo_length_le _ _, ?_⟩
    · exact all_of_sublist (truncateTo_sublist _ _)
        (all_of_sublist (dropTrailing_sublist _ _) h1)
    · intro he
      rw [he] at hcond
      simp at hcond

/-- Second application of `_safe_blob_name` is the identity provided the first
output does not end in a stripped character (`.`, `/`, `\`), which can only
happen when truncation to 1024 characters cuts directly after one. -/
theorem safeBlobNameL_idem {l : List Char}
    (h : ∀ c, (safeBlobNameL l).getLast? = some c → isTrailingStripChar c = false) :
    safeBlobNameL (safeBlobNameL l) = safeBlobNameL l := by
  obtain ⟨hall, hlen, hne⟩ := safeBlobNameL_facts l
  set y := safeBlobNameL l with hy
  have hfilter : y.filter (fun c => !isCtrlChar c) = y :=
    List.filter_eq_self.mpr (List.all_eq_true.mp hall)
  show (if (truncateTo 1024 (dropTrailing isTrailingStripChar
      (y.filter (fun c => !isCtrlChar c)))).isEmpty then "unnamed-blob".data
    else truncateTo 1024 (dropTrailing isTrailingStripChar
      (y.filter (fun c => !isCtrlChar c)))) = y
  rw [hfilter, dropTrailing_eq_self h, truncateTo_eq_self hlen, if_neg]
  simp [hne]

theorem replaceInvalidChar_comp_underscore (c : Char) :
    replaceInvalidChar (underscoreToHyphen c) =
      if validChar c then c else '-' := by
  by_cases h : c = '_'
  · subst h; decide
  · rw [underscoreToHyphen, if_neg h, replaceInvalidChar]

theorem padToThree_eq_append (t : List Char) :
    padToThree t = t ++ List.replicate (3 - t.length) 'a' := by
  rw [padToThree]
  split <;> rename_i h
  · match t, h with
    | [], _ => rfl
    | [x], _ => rfl
    | [x, y], _ => rfl
  · have : 3 - t.length = 0 := by omega
    rw [this, List.replicate_zero, List.append_nil]

theorem truncateTo_eq_take (n : Nat) (t : List Char) :
    truncateTo n t = t.take n := by
  rw [truncateTo]
  split <;> rename_i h
  · rfl
  · rw [List.take_of_length_le (by omega)]

theorem safeContainerNameL_eq_spec (l : List Char) :
    safeContainerNameL l = containerNameSpecL l := by
  rw [safeContainerNameL, containerNameSpecL, List.map_map]
  rw [show replaceInvalidChar ∘ underscoreToHyphen =
    (fun c => if validChar c then c else '-') from
    funext replaceInvalidChar_comp_underscore]
  rw [padToThree_eq_append, truncateTo_eq_take]

/-- Input whose sanitized container name ends in a hyphen: 62 copies of `a`
followed by `-b`; truncation to 63 characters cuts directly after the hyphen. -/
def containerCx : String :=
  ⟨List.replicate 62 'a' ++ ['-', 'b']⟩

set_option maxRecDepth 4000 in
/-- C8 counterexample: `_safe_container_name` is not idempotent on
`containerCx` (the first pass ends in a hyphen due to truncation, and the
second pass trims it), refuting the claimed idempotence for every input. -/
theorem C8_counterexample_idem :
    safeContainerName (safeContainerName containerCx) ≠ safeContainerName containerCx := by
  decide

/-- C8 (amended): container-name sanitization is idempotent on every input
whose sanitized form does not end in `-`, and blob-name sanitization is
idempotent on every input whose sanitized form does not end in `.`, `/` or
`\` — the exceptions arise exactly when truncation (to 63, resp. 1024
characters) cuts directly after such a character. -/
theorem C8_sanitization_idem (x : String) :
    ((safeContainerName x).data.getLast? ≠ some '-' →
      safeContainerName (safeContainerName x) = safeContainerName x) ∧
    ((safeBlobName x).data.getLast?.all (fun c => !isTrailingStripChar c) = true →
      safeBlobName (safeBlobName x) = safeBlobName x) := by
  constructor
  · intro h
    show (⟨safeContainerNameL (safeContainerNameL x.data)⟩ : String) = _
    rw [safeContainerNameL_idem h]
    rfl
  · intro h
    show (⟨safeBlobNameL (safeBlobNameL x.data)⟩ : String) = _
    rw [safeBlobNameL_idem ?_]
    · rfl
    · intro c hc
      have h2 : Option.all (fun c => !isTrailingStripChar c)
          ((safeBlobNameL x.data).getLast?) = true := h
      rw [hc] at h2
      simpa using h2

/-- C8 witness: both idempotence statements applied at concrete inputs. -/
theorem C8_sanitization_idem_witness :
    safeContainerName (safeContainerName "My_Container") = safeContainerName "My_Container" ∧
    safeBlobName (safeBlobName "reports/v1 summary.pdf") = safeBlobName "reports/v1 summary.pdf" :=
  ⟨(C8_sanitization_idem "My_Container").1 (by decide),
   (C8_sanitization_idem "reports/v1 summary.pdf").2 (by decide)⟩

set_option maxRecDepth 4000 in
/-- C9 counterexample: on `containerCx` the sanitized container name is
62 copies of `a` followed by a hyphen — it ends in a hyphen, refuting the
claimed "no leading or trailing hyphen" invariant. -/
theorem C9_counterexample_trailing_hyphen :
    (safeContainerName containerCx).data.getLast? = some '-' ∧
    safeContainerName containerCx = ⟨List.replicate 62 'a' ++ ['-']⟩ := by
  constructor
  · decide
  · decide

/-- C9 (amended): `_safe_container_name` computes exactly the
lowercase/replace/collapse/trim/pad/truncate pipeline described by the claim,
and its output always has length between 3 and 63, contains only lowercase
letters, digits and hyphens, and has no leading hyphen.  (A trailing hyphen is
possible when truncation to 63 characters cuts directly after a hyphen.) -/
theorem C9_container_name_rule (x : String) :
    safeContainerName x = containerNameSpec x ∧
    3 ≤ (safeContainerName x).data.length ∧
    (safeContainerName x).data.length ≤ 63 ∧
    (safeContainerName x).data.all validChar = true ∧
    (safeContainerName x).data.head?.all (fun c => c != '-') = true := by
  obtain ⟨hall, _, hlen3, hlen63, hhead⟩ := safeContainerNameL_facts x.data
  refine ⟨?_, hlen3, hlen63, hall, ?_⟩
  · show (⟨safeContainerNameL x.data⟩ : String) = ⟨containerNameSpecL x.data⟩
    rw [safeContainerNameL_eq_spec]
  · cases hh : (safeContainerName x).data.head? with
    | none => rfl
    | some c =>
      have := hhead c hh
      simpa using this

/-! ## Data model (`src/multimodal_processing_pipeline/data_models.py`)

Pydantic value objects become Lean structures.  Python `Optional[T]` fields
become `Option T` with the same defaults. -/

/-- `DataUnit` (`data_models.py` lines 148-154). -/
structure DataUnit where
  text : String
  language : String := "en"
  text_file_path : Option String := none
  text_file_cloud_storage_path : Option String := none
  page_image_path : Option String := none
  page_image_cloud_storage_path : Option String := none
deriving DecidableEq, Repr, Inhabited

/-- `PDFMetadata` (`data_models.py` lines 286-296). -/
structure PDFMetadata where
  document_id : String
  document_path : String
  filename : String
  total_pages : Nat
  processed_pages : Nat := 0
  output_directory : String
  cloud_storage_path : Option String := none
deriving DecidableEq, Repr, Inhabited

/-- `ExtractedText` (`data_models.py` lines 328-333). -/
structure ExtractedText where
  page_number : Nat
  text : Option DataUnit := none
deriving DecidableEq, Repr, Inhabited

/-- `ExtractedImage` (`data_models.py` lines 403-410). -/
structure ExtractedImage where
  page_number : Nat
  image_path : String
  image_type : String
  text : Option DataUnit := none
deriving DecidableEq, Repr, Inhabited

/-- `ExtractedTable` (`data_models.py` lines 484-490). -/
structure ExtractedTable where
  page_number : Nat
  text : Option DataUnit := none
  summary : Option String := none
deriving DecidableEq, Repr, Inhabited

/-- `PageContent` (`data_models.py` lines 575-586). -/
structure PageContent where
  page_number : Nat
  text : ExtractedText
  page_image_path : String
  images : List ExtractedImage
  tables : List ExtractedTable
  page_text : Option DataUnit := none
  page_image_cloud_storage_path : Option String := none
  custom_page_processing_steps : List DataUnit := []
deriving DecidableEq, Repr, Inhabited

/-- `PostProcessingContent` (`data_models.py` lines 881-888). -/
structure PostProcessingContent where
  condensed_text : Option DataUnit := none
  table_of_contents : Option DataUnit := none
  full_text : Option DataUnit := none
  translated_full_texts : Option (List DataUnit) := none
  translated_condensed_texts : Option (List DataUnit) := none
  custom_document_processing_steps : List DataUnit := []
  document_json : Option DataUnit := none
deriving DecidableEq, Repr, Inhabited

/-- `DocumentContent` (`data_models.py` lines 1149-1156). -/
structure DocumentContent where
  metadata : PDFMetadata
  pages : List PageContent
  full_text : Option String := none
  post_processing_content : Option PostProcessingContent := none
deriving DecidableEq, Repr, Inhabited

/-- `PipelineState` (`data_models.py` lines 53-58): the per-document resume
token with four "done"-page lists and the post-processing flag. -/
structure PipelineState where
  text_extracted_pages : List Nat := []
  custom_page_processing : List Nat := []
  images_extracted_pages : List Nat := []
  tables_extracted_pages : List Nat := []
  post_processing_done : Bool := false
deriving DecidableEq, Repr, Inhabited

/-! ## Pipeline state loading (claim C3)

`PipelineState.load_from_json` (`data_models.py` lines 65-73) checks
`file_path.is_file()` and, when the file exists, delegates to
`SerializableModel.from_json` (lines 22-33), which runs `json.load` with no
exception handling: a parse error propagates to the caller.
`PDFIngestionPipeline._load_pipeline_state`
(`pdf_ingestion_pipeline.py` lines 174-186) has the same structure
(`read_json_file` + `PipelineState(**data)` under a bare `is_file()` check,
no try/except).  The state file on disk is modelled by its parse outcome:
`none` when `pipeline_state.json` does not exist, `some (.ok s)` when it
exists and parses to `s`, and `some (.error e)` when it exists but
`json.load` raises `e`. -/

def PipelineState.load_from_json (file : Option (Except PyError PipelineState)) :
    Except PyError PipelineState :=
  match file with
  | none => .ok {}
  | some r => r

/-- C3 counterexample: when `pipeline_state.json` exists but fails to parse,
`PipelineState.load_from_json` propagates the `json.JSONDecodeError` instead
of returning a fresh empty `PipelineState`. -/
theorem C3_counterexample_corrupt_state :
    PipelineState.load_from_json (some (.error .jsonDecodeError)) =
      .error .jsonDecodeError ∧
    PipelineState.load_from_json (some (.error .jsonDecodeError)) ≠
      .ok ({} : PipelineState) := by
  constructor
  · rfl
  · exact fun h => Except.noConfusion h

/-- C3 (amended): a fresh empty `PipelineState` is initialized only when
`pipeline_state.json` does not exist; when the file exists, its parse result
is returned as-is — in particular a parse error propagates to the caller. -/
theorem C3_state_load_behavior :
    PipelineState.load_from_json none = .ok ({} : PipelineState) ∧
    (∀ e : PyError, PipelineState.load_from_json (some (.error e)) = .error e) ∧
    (∀ s : PipelineState, PipelineState.load_from_json (some (.ok s)) = .ok s) :=
  ⟨rfl, fun _ => rfl, fun _ => rfl⟩

/-! ## Pipeline orchestration
(`src/multimodal_processing_pipeline/pdf_ingestion_pipeline.py`)

The page loop of `process_pdf` and `_process_page_with_state` are embedded
with explicit state passing for `self.pipeline_state`.  External effects are
oracle structures: the LLM results (`process_text`, `analyze_images`,
`analyze_tables`, custom page prompts), the raw PDF text (`page.get_text()`),
and the on-disk artifacts read back on resume.  File writes performed by the
page loop do not feed back into any value the claims are about and are not
tracked here. -/

/-- Structured LLM output for one embedded image
(`data_models.py` `EmbeddedImage`, lines 94-116; `visual_type` is one of a
fixed string enum). -/
structure EmbeddedImage where
  visual_description : String
  contextual_relevance : String
  analysis : String
  visual_type : String
deriving DecidableEq, Repr, Inhabited

/-- Structured LLM output for one embedded table
(`data_models.py` `EmbeddedTable`, lines 126-132). -/
structure EmbeddedTable where
  markdown : String
  contextual_relevance : String
  analysis : String
deriving DecidableEq, Repr, Inhabited

/-- `CustomProcessingStep` (`configuration_models.py` lines 10-17); the
`data_model` schema and the `ai_model` descriptor are kept only as the
features the pipeline's control flow inspects (presence of a schema selects
the `.json` filename; the descriptor family selects whether the page image is
attached to the LLM call, which the oracle models). -/
structure CustomProcessingStep where
  name : String
  prompt : String
  has_data_model : Bool := false
  ai_model_is_multimodal : Option Bool := some true
deriving DecidableEq, Repr, Inhabited

/-- `ProcessingPipelineConfiguration` (`configuration_models.py` lines
22-41); the two model descriptors are opaque client handles and are omitted. -/
structure ProcessingPipelineConfiguration where
  pdf_path : String
  output_directory : Option String := none
  resume_processing_if_interrupted : Bool := true
  process_pages_as_jpg : Bool := true
  process_text : Bool := true
  process_images : Bool := true
  process_tables : Bool := true
  custom_page_processing_steps : List CustomProcessingStep := []
  save_text_files : Bool := true
  generate_condensed_text : Bool := false
  generate_table_of_contents : Bool := false
  translate_full_text : List String := []
  translate_condensed_text : List String := []
  custom_document_processing_steps : List CustomProcessingStep := []
deriving DecidableEq, Repr, Inhabited

/-- External effects observed while processing one page: PDF text extraction,
LLM results, and the artifacts read back from disk when the pipeline state
marks a stage as already done. -/
structure PageOracle where
  pdf_text : String := ""
  llm_text : String := ""
  detected_visuals : List EmbeddedImage := []
  detected_tables : List EmbeddedTable := []
  disk_text : String := ""
  disk_text_file_exists : Bool := false
  disk_images : List ExtractedImage := []
  disk_tables : List ExtractedTable := []
  custom_fresh : List String := []
  custom_loaded : List String := []
deriving DecidableEq, Repr, Inhabited

/-- Modelled from the spec: `convert_path` (a path-normalization helper used
throughout the pipeline) is not present under `src/`; the spec compares values
"modulo path canonicalization", so it is modelled as the identity on paths. -/
def convert_path (s : String) : String := s

/-- Directory `pages/page_{n}` under the output directory. -/
def pageDirPath (outDir : String) (n : Nat) : String :=
  outDir ++ "/pages/page_" ++ toString n

/-- `_save_page_as_image` / `_save_page_as_image_jpg`
(`pdf_ingestion_pipeline.py` lines 210-236): the rendered page image path. -/
def savePageImagePath (cfg : ProcessingPipelineConfiguration) (outDir : String)
    (n : Nat) : String :=
  pageDirPath outDir n ++ "/page_" ++ toString n ++
    (if cfg.process_pages_as_jpg then ".jpg" else ".png")

/-- `_extract_text_from_page` (`pdf_ingestion_pipeline.py` lines 238-268):
raw `page.get_text()`, optionally LLM-processed, saved to
`pages/page_{n}/page_{n}.txt`. -/
def extractTextFromPage (cfg : ProcessingPipelineConfiguration) (outDir : String)
    (o : PageOracle) (n : Nat) (page_image_path : String) : ExtractedText :=
  let text := if cfg.process_text then o.llm_text else o.pdf_text
  let text_filename := pageDirPath outDir n ++ "/page_" ++ toString n ++ ".txt"
  { page_number := n
    text := some { text := text
                   text_file_path := some (convert_path text_filename)
                   page_image_path := some (convert_path page_image_path) } }

/-- `_load_extracted_text` (`pdf_ingestion_pipeline.py` lines 440-457). -/
def loadExtractedText (outDir : String) (o : PageOracle) (n : Nat)
    (page_image_path : String) : ExtractedText :=
  let text_file := pageDirPath outDir n ++ "/page_" ++ toString n ++ ".txt"
  { page_number := n
    text := some { text := if o.disk_text_file_exists then o.disk_text else ""
                   text_file_path :=
                     if o.disk_text_file_exists then some (convert_path text_file) else none
                   page_image_path := some (convert_path page_image_path) } }

/-- `_extract_images_from_page` (`pdf_ingestion_pipeline.py` lines 270-309). -/
def extractImagesFromPage (outDir : String) (o : PageOracle) (n : Nat)
    (page_image_path : String) : List ExtractedImage :=
  o.detected_visuals.enum.map (fun p =>
    let text_filename := pageDirPath outDir n ++ "/images/page_" ++ toString n ++
      "_" ++ p.2.visual_type ++ "_" ++ toString (p.1 + 1) ++ ".txt"
    -- the concatenation written to disk is also the stored `DataUnit.text`
    let full_image_text := p.2.visual_description ++ "\n\n" ++
      p.2.contextual_relevance ++ "\n\n" ++ p.2.analysis
    { page_number := n
      image_path := convert_path page_image_path
      image_type := p.2.visual_type
      text := some { text := full_image_text
                     text_file_path := some (convert_path text_filename)
                     page_image_path := some (convert_path page_image_path) } })

/-- `_extract_tables_from_page` (`pdf_ingestion_pipeline.py` lines 311-348). -/
def extractTablesFromPage (outDir : String) (o : PageOracle) (n : Nat)
    (page_image_path : String) : List ExtractedTable :=
  o.detected_tables.enum.map (fun p =>
    let text_filename := pageDirPath outDir n ++ "/tables/page_" ++ toString n ++
      "_table_" ++ toString (p.1 + 1) ++ ".txt"
    -- the file written to disk holds markdown ++ relevance ++ analysis, while
    -- the stored `DataUnit.text` is only the markdown (source lines 326-344)
    { page_number := n
      text := some { text := p.2.markdown
                     text_file_path := some (convert_path text_filename)
                     page_image_path := some (convert_path page_image_path) }
      summary := some (p.2.contextual_relevance ++ "\n\n" ++ p.2.analysis) })

/-- `_combine_page_content` (`pdf_ingestion_pipeline.py` lines 350-391):
the page header uses `extracted_text.page_number` (line 365) while the image
tag uses the `page_number` argument (line 388). -/
def combinePageContent (page_number : Nat) (extracted_text : ExtractedText)
    (page_image_path : String) (images : List ExtractedImage)
    (tables : List ExtractedTable) : String :=
  let c := "##### --- Page " ++ toString extracted_text.page_number ++ " ---\n\n"
  let c := c ++ "# Extracted Text\n\n"
  let c := c ++ (match extracted_text.text with
    | some du => if du.text ≠ "" then du.text ++ "\n\n" else ""
    | none => "")
  let c := c ++ (if images ≠ [] then
    "\n# Embedded Images:\n\n" ++
      images.enum.foldl (fun acc p =>
        acc ++ "### - Image " ++ toString (p.1 + 1) ++ ":\n" ++
          (match p.2.text with
           | some du => if du.text ≠ "" then du.text ++ "\n\n" else ""
           | none => "")) ""
    else "")
  let c := c ++ (if tables ≠ [] then
    "\n# Tables:\n\n" ++
      tables.enum.foldl (fun acc p =>
        acc ++ "### - Table " ++ toString (p.1 + 1) ++ ":\n\n" ++
          (match p.2.text with
           | some du => if du.text ≠ "" then du.text ++ "\n\n" else ""
           | none => "") ++
          (match p.2.summary with
           | some s => if s ≠ "" then "Summary:\n" ++ s ++ "\n\n" else ""
           | none => "")) ""
    else "")
  let c := c ++ "<br/>\n<br/>\n<img src=\"" ++ page_image_path ++
    "\" alt=\"Page Number " ++ toString page_number ++ "\" width=\"300\" height=\"425\">"
  c ++ "\n\n\n\n"

/-- `apply_page_processing_steps` (`pdf_ingestion_pipeline.py` lines
394-434): one `DataUnit` per configured step (fresh LLM output or re-read
from disk depending on the pipeline state), and — line 432, outside both the
loop and any conditional — the page number is appended to
`custom_page_processing` unconditionally. -/
def applyPageProcessingSteps (cfg : ProcessingPipelineConfiguration)
    (o : PageOracle) (st : PipelineState) (page_number : Nat)
    (page_dir : String) (page_image_path : String) :
    List DataUnit × PipelineState :=
  let data_units := cfg.custom_page_processing_steps.enum.map (fun p =>
    let custom_processed_text_path := page_dir ++ "/custom_processing/page_step_" ++
      p.2.name ++ (if p.2.has_data_model then ".json" else ".txt")
    let custom_processed_text :=
      if page_number ∈ st.custom_page_processing then
        o.custom_loaded.getD p.1 ""
      else
        o.custom_fresh.getD p.1 ""
    ({ text := custom_processed_text
       text_file_path := some (convert_path custom_processed_text_path)
       page_image_path := some (convert_path page_image_path) } : DataUnit))
  (data_units,
   { st with custom_page_processing := st.custom_page_processing ++ [page_number] })

/-- `_process_page_with_state` (`pdf_ingestion_pipeline.py` lines 862-933). -/
def processPageWithState (cfg : ProcessingPipelineConfiguration) (outDir : String)
    (o : PageOracle) (st : PipelineState) (page_number : Nat) :
    PageContent × PipelineState :=
  let page_image_path := savePageImagePath cfg outDir page_number
  let textStep : ExtractedText × PipelineState :=
    if page_number ∈ st.text_extracted_pages then
      (loadExtractedText outDir o page_number page_image_path, st)
    else
      (extractTextFromPage cfg outDir o page_number page_image_path,
       { st with text_extracted_pages := st.text_extracted_pages ++ [page_number] })
  let extracted_text := textStep.1
  let st1 := textStep.2
  let imageStep : List ExtractedImage × PipelineState :=
    if cfg.process_images then
      if page_number ∈ st1.images_extracted_pages then
        (o.disk_images, st1)
      else
        (extractImagesFromPage outDir o page_number page_image_path,
         { st1 with images_extracted_pages := st1.images_extracted_pages ++ [page_number] })
    else ([], st1)
  let images := imageStep.1
  let st2 := imageStep.2
  let tableStep : List ExtractedTable × PipelineState :=
    if cfg.process_tables then
      if page_number ∈ st2.tables_extracted_pages then
        (o.disk_tables, st2)
      else
        (extractTablesFromPage outDir o page_number page_image_path,
         { st2 with tables_extracted_pages := st2.tables_extracted_pages ++ [page_number] })
    else ([], st2)
  let tables := tableStep.1
  let st3 := tableStep.2
  let combined_str := combinePageContent page_number extracted_text page_image_path
    images tables
  let page_dir := pageDirPath outDir page_number
  let page_text_filename := page_dir ++ "/page_" ++ toString page_number ++ "_twin.txt"
  let stepResult := applyPageProcessingSteps cfg o st3 page_number page_dir page_image_path
  ({ page_number := page_number
     text := extracted_text
     page_image_path := convert_path page_image_path
     images := images
     tables := tables
     page_text := some { text := combined_str
                         text_file_path := some (convert_path page_text_filename)
                         page_image_path := some (convert_path page_image_path) }
     custom_page_processing_steps := stepResult.1 }, stepResult.2)

/-- `_delete_pipeline_state` followed by `_load_pipeline_state`
(`pdf_ingestion_pipeline.py` lines 947-952): when resuming is disabled the
state file is deleted first, so loading yields a fresh state; otherwise the
state parsed from disk (`diskState`, `none` when the file is absent) is used. -/
def initialState (cfg : ProcessingPipelineConfiguration)
    (diskState : Option PipelineState) : PipelineState :=
  if cfg.resume_processing_if_interrupted then diskState.getD {} else {}

/-- On-disk post-processing artifacts read by `_load_post_processing_files`
on a resumed run (`pdf_ingestion_pipeline.py` lines 531-634): file contents
when present, `none`/`false` when absent. -/
structure PostFiles where
  text_twin : Option String := none
  condensed : Option String := none
  toc : Option String := none
  doc_step_file_exists : List Bool := []
  document_json_exists : Bool := false
  translations_dir_exists : Bool := false
deriving DecidableEq, Repr, Inhabited

/-- `_load_post_processing_files` (`pdf_ingestion_pipeline.py` lines
531-634).  Step 1 overwrites `document_content.full_text` from
`text_twin.md` when that file exists (line 550).  Step 4 (lines 581-594)
assigns the non-existent field `custom_document_page_text`, which raises a
pydantic `ValueError` as soon as a configured custom-document-step artifact
file exists.  Step 6's filename regex (line 620) requires a literal
backslash before `.txt`, so it matches no real translation file and only the
list initialization of lines 611-614 is observable. -/
def loadPostProcessingFiles (cfg : ProcessingPipelineConfiguration)
    (outDir : String) (files : PostFiles) (doc : DocumentContent) :
    Except PyError DocumentContent :=
  let ppc := doc.post_processing_content.getD {}
  let step1 : DocumentContent × PostProcessingContent :=
    match files.text_twin with
    | some twin =>
      ({ doc with full_text := some twin },
       { ppc with
         full_text :=
           some { text := twin, text_file_path := some (outDir ++ "/text_twin.md") } })
    | none => (doc, ppc)
  let ppc := match files.condensed with
    | some t =>
      { step1.2 with
        condensed_text :=
          some { text := t, text_file_path := some (outDir ++ "/condensed_text.md") } }
    | none => step1.2
  let ppc := match files.toc with
    | some t =>
      { ppc with
        table_of_contents :=
          some { text := t, text_file_path := some (outDir ++ "/table_of_contents.md") } }
    | none => ppc
  if cfg.custom_document_processing_steps.enum.any
      (fun p => files.doc_step_file_exists.getD p.1 false) then
    .error .valueError
  else
    let ppc := if files.document_json_exists then
        { ppc with
          document_json :=
            some { text := "", text_file_path := some (outDir ++ "/document_content.json") } }
      else ppc
    let ppc := if files.translations_dir_exists then
        { ppc with
          translated_full_texts := some (ppc.translated_full_texts.getD [])
          translated_condensed_texts := some (ppc.translated_condensed_texts.getD []) }
      else ppc
    .ok { step1.1 with post_processing_content := some ppc }

/-- `save_document_content_json` (`pdf_ingestion_pipeline.py` lines 836-856):
ensures `post_processing_content` exists and records the `document_json`
reference before writing the JSON file. -/
def saveDocumentContentJson (outDir : String) (doc : DocumentContent) :
    DocumentContent :=
  let ppc := doc.post_processing_content.getD {}
  { doc with
    post_processing_content :=
      some { ppc with
             document_json :=
               some { text := "",
                      text_file_path :=
                        some (convert_path (outDir ++ "/document_content.json")) } } }

/-- Page loop of `process_pdf` (`pdf_ingestion_pipeline.py` lines 954-961):
pages 1 to `total` in ascending order, threading the pipeline state. -/
def pageLoop (cfg : ProcessingPipelineConfiguration) (outDir : String)
    (O : Nat → PageOracle) (st0 : PipelineState) (total : Nat) :
    List PageContent × PipelineState :=
  (List.range' 1 total).foldl (fun acc n =>
    let pr := processPageWithState cfg outDir (O n) acc.2 n
    (acc.1 ++ [pr.1], pr.2)) ([], st0)

/-- The pipeline state after the first `k` pages of the run. -/
def pageStates (cfg : ProcessingPipelineConfiguration) (outDir : String)
    (O : Nat → PageOracle) (st0 : PipelineState) (k : Nat) : PipelineState :=
  (List.range' 1 k).foldl
    (fun st n => (processPageWithState cfg outDir (O n) st n).2) st0

/-- `process_pdf` (`pdf_ingestion_pipeline.py` lines 935-990).  The
`_post_processing_steps` phase (lines 697-832) only writes artifact files and
populates `post_processing_content` subfields — it never modifies
`metadata`, `pages`, `full_text` or the pipeline state — and its
LLM-dependent result is modelled by the `postOracle` function. -/
def processPdf (cfg : ProcessingPipelineConfiguration) (outDir : String)
    (meta : PDFMetadata) (O : Nat → PageOracle)
    (diskState : Option PipelineState) (files : PostFiles)
    (postOracle : DocumentContent → PostProcessingContent) :
    Except PyError (DocumentContent × PipelineState) :=
  let st0 := initialState cfg diskState
  let looped := pageLoop cfg outDir O st0 meta.total_pages
  let pages := looped.1
  let st1 := looped.2
  let full_text := String.intercalate "\n" (pages.filterMap (fun p =>
    match p.page_text with
    | some du => if du.text ≠ "" then some du.text else none
    | none => none))
  let document : DocumentContent :=
    { metadata := { meta with processed_pages := pages.length }
      pages := pages
      full_text := some full_text }
  if st1.post_processing_done = false then
    let document := { document with post_processing_content := some (postOracle document) }
    .ok (saveDocumentContentJson outDir document,
         { st1 with post_processing_done := true })
  else
    match loadPostProcessingFiles cfg outDir files document with
    | .error e => .error e
    | .ok document => .ok (saveDocumentContentJson outDir document, st1)

/-! ### Pipeline state lemmas (claims C2, C10, C6) -/

/-- One page step changes the pipeline state by appends only: the page number
is appended to each stage list exactly when that stage ran, and to
`custom_page_processing` unconditionally; the flag is untouched. -/
theorem processPageWithState_snd (cfg : ProcessingPipelineConfiguration)
    (outDir : String) (o : PageOracle) (st : PipelineState) (n : Nat) :
    (processPageWithState cfg outDir o st n).2 =
      { text_extracted_pages :=
          st.text_extracted_pages ++ (if n ∈ st.text_extracted_pages then [] else [n]),
        custom_page_processing := st.custom_page_processing ++ [n],
        images_extracted_pages :=
          st.images_extracted_pages ++
            (if cfg.process_images = true ∧ n ∉ st.images_extracted_pages then [n] else []),
        tables_extracted_pages :=
          st.tables_extracted_pages ++
            (if cfg.process_tables = true ∧ n ∉ st.tables_extracted_pages then [n] else []),
        post_processing_done := st.post_processing_done } := by
  by_cases h1 : n ∈ st.text_extracted_pages <;>
    by_cases h2 : cfg.process_images = true <;>
      by_cases h3 : n ∈ st.images_extracted_pages <;>
        by_cases h4 : cfg.process_tables = true <;>
          by_cases h5 : n ∈ st.tables_extracted_pages <;>
            simp [processPageWithState, applyPageProcessingSteps, h1, h2, h3, h4, h5]

theorem processPageWithState_state_mono (cfg : ProcessingPipelineConfiguration)
    (outDir : String) (o : PageOracle) (st : PipelineState) (n : Nat) :
    st.text_extracted_pages ⊆ (processPageWithState cfg outDir o st n).2.text_extracted_pages ∧
    st.images_extracted_pages ⊆ (processPageWithState cfg outDir o st n).2.images_extracted_pages ∧
    st.tables_extracted_pages ⊆ (processPageWithState cfg outDir o st n).2.tables_extracted_pages ∧
    st.custom_page_processing ⊆ (processPageWithState cfg outDir o st n).2.custom_page_processing ∧
    (processPageWithState cfg outDir o st n).2.post_processing_done = st.post_processing_done := by
  rw [processPageWithState_snd]
  exact ⟨List.subset_append_left _ _, List.subset_append_left _ _,
    List.subset_append_left _ _, List.subset_append_left _ _, rfl⟩

theorem pageStates_succ (cfg : ProcessingPipelineConfiguration) (outDir : String)
    (O : Nat → PageOracle) (st0 : PipelineState) (k : Nat) :
    pageStates cfg outDir O st0 (k + 1) =
      (processPageWithState cfg outDir (O (k + 1))
        (pageStates cfg outDir O st0 k) (k + 1)).2 := by
  rw [pageStates, pageStates, List.range'_1_concat, List.foldl_append,
    List.foldl_cons, List.foldl_nil, Nat.add_comm 1 k]

theorem pageStates_mono (cfg : ProcessingPipelineConfiguration) (outDir : String)
    (O : Nat → PageOracle) (st0 : PipelineState) {i j : Nat} (hij : i ≤ j) :
    (pageStates cfg outDir O st0 i).text_extracted_pages ⊆
      (pageStates cfg outDir O st0 j).text_extracted_pages ∧
    (pageStates cfg outDir O st0 i).images_extracted_pages ⊆
      (pageStates cfg outDir O st0 j).images_extracted_pages ∧
    (pageStates cfg outDir O st0 i).tables_extracted_pages ⊆
      (pageStates cfg outDir O st0 j).tables_extracted_pages ∧
    (pageStates cfg outDir O st0 i).custom_page_processing ⊆
      (pageStates cfg outDir O st0 j).custom_page_processing := by
  induction j, hij using Nat.le_induction with
  | base =>
    exact ⟨List.Subset.refl _, List.Subset.refl _, List.Subset.refl _, List.Subset.refl _⟩
  | succ j hij ih =>
    rw [pageStates_succ]
    obtain ⟨s1, s2, s3, s4, _⟩ := processPageWithState_state_mono cfg outDir (O (j + 1))
      (pageStates cfg outDir O st0 j) (j + 1)
    exact ⟨ih.1.trans s1, ih.2.1.trans s2, ih.2.2.1.trans s3, ih.2.2.2.trans s4⟩

theorem pageStates_post (cfg : ProcessingPipelineConfiguration) (outDir : String)
    (O : Nat → PageOracle) (st0 : PipelineState) :
    ∀ k, (pageStates cfg outDir O st0 k).post_processing_done = st0.post_processing_done
  | 0 => rfl
  | k + 1 => by
    rw [pageStates_succ,
      (processPageWithState_state_mono cfg outDir (O (k + 1)) _ (k + 1)).2.2.2.2,
      pageStates_post cfg outDir O st0 k]

theorem pageLoop_snd_aux (cfg : ProcessingPipelineConfiguration) (outDir : String)
    (O : Nat → PageOracle) :
    ∀ (l : List Nat) (acc : List PageContent × PipelineState),
      (l.foldl (fun acc n =>
        let pr := processPageWithState cfg outDir (O n) acc.2 n
        (acc.1 ++ [pr.1], pr.2)) acc).2 =
      l.foldl (fun st n => (processPageWithState cfg outDir (O n) st n).2) acc.2
  | [], _ => rfl
  | n :: l, acc => by
    rw [List.foldl_cons, List.foldl_cons]
    exact pageLoop_snd_aux cfg outDir O l _

theorem pageLoop_snd (cfg : ProcessingPipelineConfiguration) (outDir : String)
    (O : Nat → PageOracle) (st0 : PipelineState) (total : Nat) :
    (pageLoop cfg outDir O st0 total).2 = pageStates cfg outDir O st0 total :=
  pageLoop_snd_aux cfg outDir O (List.range' 1 total) ([], st0)

theorem pageLoop_succ (cfg : ProcessingPipelineConfiguration) (outDir : String)
    (O : Nat → PageOracle) (st0 : PipelineState) (k : Nat) :
    pageLoop cfg outDir O st0 (k + 1) =
      ((pageLoop cfg outDir O st0 k).1 ++
        [(processPageWithState cfg outDir (O (k + 1))
          ((pageLoop cfg outDir O st0 k).2) (k + 1)).1],
       (processPageWithState cfg outDir (O (k + 1))
          ((pageLoop cfg outDir O st0 k).2) (k + 1)).2) := by
  rw [pageLoop, pageLoop, List.range'_1_concat, List.foldl_append,
    List.foldl_cons, List.foldl_nil, Nat.add_comm 1 k]

/-- The combined page block is never the empty string: it always ends with
the page-image tag and four newlines. -/
theorem combinePageContent_ne_empty (page_number : Nat)
    (extracted_text : ExtractedText) (page_image_path : String)
    (images : List ExtractedImage) (tables : List ExtractedTable) :
    combinePageContent page_number extracted_text page_image_path images tables ≠ "" := by
  intro h
  have hl := congrArg String.length h
  rw [combinePageContent] at hl
  simp only [String.length_append] at hl
  have h4 : ("\n\n\n\n" : String).length = 4 := rfl
  rw [h4] at hl
  have h0 : ("" : String).length = 0 := rfl
  rw [h0] at hl
  omega

theorem processPageWithState_fst_page_number (cfg : ProcessingPipelineConfiguration)
    (outDir : String) (o : PageOracle) (st : PipelineState) (n : Nat) :
    (processPageWithState cfg outDir o st n).1.page_number = n := rfl

theorem processPageWithState_fst_page_text (cfg : ProcessingPipelineConfiguration)
    (outDir : String) (o : PageOracle) (st : PipelineState) (n : Nat) :
    ∃ du, (processPageWithState cfg outDir o st n).1.page_text = some du ∧
      du.text ≠ "" :=
  ⟨_, rfl, combinePageContent_ne_empty _ _ _ _ _⟩

/-- The page loop produces the pages in ascending order `1..k`, each carrying
a non-empty combined `page_text`. -/
theorem pageLoop_pages (cfg : ProcessingPipelineConfiguration) (outDir : String)
    (O : Nat → PageOracle) (st0 : PipelineState) :
    ∀ k, (pageLoop cfg outDir O st0 k).1.map PageContent.page_number = List.range' 1 k ∧
      ∀ p ∈ (pageLoop cfg outDir O st0 k).1, ∃ du, p.page_text = some du ∧ du.text ≠ ""
  | 0 => ⟨rfl, by simp [pageLoop]⟩
  | k + 1 => by
    obtain ⟨ih1, ih2⟩ := pageLoop_pages cfg outDir O st0 k
    rw [pageLoop_succ]
    constructor
    · rw [List.map_append, ih1, List.range'_1_concat, Nat.add_comm 1 k]
      simp [processPageWithState_fst_page_number]
    · intro p hp
      rcases List.mem_append.mp hp with h | h
      · exact ih2 p h
      · rw [List.mem_singleton] at h
        subst h
        exact processPageWithState_fst_page_text cfg outDir (O (k + 1)) _ (k + 1)

theorem filterMap_eq_map_of {α β : Type} {f : α → Option β} {g : α → β} :
    ∀ {l : List α}, (∀ a ∈ l, f a = some (g a)) → l.filterMap f = l.map g
  | [], _ => rfl
  | a :: l, h => by
    rw [List.filterMap_cons, h a (by simp), List.map_cons,
      filterMap_eq_map_of (fun b hb => h b (by simp [hb]))]

theorem saveDocumentContentJson_pages (outDir : String) (d : DocumentContent) :
    (saveDocumentContentJson outDir d).pages = d.pages := rfl

theorem saveDocumentContentJson_full_text (outDir : String) (d : DocumentContent) :
    (saveDocumentContentJson outDir d).full_text = d.full_text := rfl

/-- When `text_twin.md` is absent, a successful `_load_post_processing_files`
leaves `full_text` and `pages` unchanged. -/
theorem loadPostProcessingFiles_no_twin (cfg : ProcessingPipelineConfiguration)
    (outDir : String) {files : PostFiles} (htwin : files.text_twin = none)
    {d d' : DocumentContent}
    (h : loadPostProcessingFiles cfg outDir files d = .ok d') :
    d'.full_text = d.full_text ∧ d'.pages = d.pages := by
  rw [loadPostProcessingFiles, htwin] at h
  simp only [] at h
  split at h
  · exact absurd h (fun hh => Except.noConfusion hh)
  · rw [Except.ok.injEq] at h
    subst h
    exact ⟨rfl, rfl⟩

/-- Lists of the state returned by a successful `process_pdf` equal those of
the state after the last page: the post-processing phase only flips the flag. -/
theorem processPdf_ok_state (cfg : ProcessingPipelineConfiguration) (outDir : String)
    (meta : PDFMetadata) (O : Nat → PageOracle) (diskState : Option PipelineState)
    (files : PostFiles) (postOracle : DocumentContent → PostProcessingContent)
    {doc : DocumentContent} {st : PipelineState}
    (h : processPdf cfg outDir meta O diskState files postOracle = .ok (doc, st)) :
    st.text_extracted_pages = (pageStates cfg outDir O (initialState cfg diskState)
      meta.total_pages).text_extracted_pages ∧
    st.images_extracted_pages = (pageStates cfg outDir O (initialState cfg diskState)
      meta.total_pages).images_extracted_pages ∧
    st.tables_extracted_pages = (pageStates cfg outDir O (initialState cfg diskState)
      meta.total_pages).tables_extracted_pages ∧
    st.custom_page_processing = (pageStates cfg outDir O (initialState cfg diskState)
      meta.total_pages).custom_page_processing := by
  rw [processPdf] at h
  simp only [] at h
  split at h
  · rw [Except.ok.injEq, Prod.mk.injEq] at h
    rw [← h.2, pageLoop_snd]
    exact ⟨rfl, rfl, rfl, rfl⟩
  · split at h
    · exact absurd h (fun hh => Except.noConfusion hh)
    · rw [Except.ok.injEq, Prod.mk.injEq] at h
      rw [← h.2, pageLoop_snd]
      exact ⟨rfl, rfl, rfl, rfl⟩

/-- C2: throughout a single run of `process_pdf` the pipeline state only
grows: along the state trace of the page loop each of the four page lists is
monotone under inclusion, and the state returned by a successful run carries
exactly the lists of the state after the last page (the post-processing phase
only flips the flag, removing nothing). -/
theorem C2_pipeline_state_monotone (cfg : ProcessingPipelineConfiguration)
    (outDir : String) (O : Nat → PageOracle) (meta : PDFMetadata)
    (diskState : Option PipelineState) (files : PostFiles)
    (postOracle : DocumentContent → PostProcessingContent)
    (i j : Nat) (hij : i ≤ j) :
    ((pageStates cfg outDir O (initialState cfg diskState) i).text_extracted_pages ⊆
       (pageStates cfg outDir O (initialState cfg diskState) j).text_extracted_pages ∧
     (pageStates cfg outDir O (initialState cfg diskState) i).images_extracted_pages ⊆
       (pageStates cfg outDir O (initialState cfg diskState) j).images_extracted_pages ∧
     (pageStates cfg outDir O (initialState cfg diskState) i).tables_extracted_pages ⊆
       (pageStates cfg outDir O (initialState cfg diskState) j).tables_extracted_pages ∧
     (pageStates cfg outDir O (initialState cfg diskState) i).custom_page_processing ⊆
       (pageStates cfg outDir O (initialState cfg diskState) j).custom_page_processing) ∧
    (∀ doc st, processPdf cfg outDir meta O diskState files postOracle = .ok (doc, st) →
      st.text_extracted_pages = (pageStates cfg outDir O (initialState cfg diskState)
        meta.total_pages).text_extracted_pages ∧
      st.images_extracted_pages = (pageStates cfg outDir O (initialState cfg diskState)
        meta.total_pages).images_extracted_pages ∧
      st.tables_extracted_pages = (pageStates cfg outDir O (initialState cfg diskState)
        meta.total_pages).tables_extracted_pages ∧
      st.custom_page_processing = (pageStates cfg outDir O (initialState cfg diskState)
        meta.total_pages).custom_page_processing) :=
  ⟨pageStates_mono cfg outDir O _ hij,
   fun _ _ h => processPdf_ok_state cfg outDir meta O diskState files postOracle h⟩

/-- Concrete configuration used by the witnesses: all defaults, no custom
steps. -/
def cfgW : ProcessingPipelineConfiguration := { pdf_path := "doc.pdf" }

/-- Concrete two-page document metadata used by the witnesses. -/
def metaW : PDFMetadata :=
  { document_id := "doc_1", document_path := "doc.pdf", filename := "doc.pdf",
    total_pages := 2, output_directory := "out" }

/-- Concrete page oracle used by the witnesses. -/
def oracleW : Nat → PageOracle := fun _ => { pdf_text := "raw", llm_text := "clean" }

/-- Concrete post-processing-artifact state used by the witnesses (no files on
disk). -/
def filesW : PostFiles := {}

/-- Concrete post-processing oracle used by the witnesses. -/
def postOracleW : DocumentContent → PostProcessingContent := fun _ => {}

/-- C2 witness: the monotonicity statement applied at a concrete run after
one and two pages. -/
theorem C2_pipeline_state_monotone_witness :
    (pageStates cfgW "out" oracleW (initialState cfgW none) 1).text_extracted_pages ⊆
      (pageStates cfgW "out" oracleW (initialState cfgW none) 2).text_extracted_pages ∧
    (pageStates cfgW "out" oracleW (initialState cfgW none) 1).images_extracted_pages ⊆
      (pageStates cfgW "out" oracleW (initialState cfgW none) 2).images_extracted_pages ∧
    (pageStates cfgW "out" oracleW (initialState cfgW none) 1).tables_extracted_pages ⊆
      (pageStates cfgW "out" oracleW (initialState cfgW none) 2).tables_extracted_pages ∧
    (pageStates cfgW "out" oracleW (initialState cfgW none) 1).custom_page_processing ⊆
      (pageStates cfgW "out" oracleW (initialState cfgW none) 2).custom_page_processing :=
  (C2_pipeline_state_monotone cfgW "out" oracleW metaW none filesW postOracleW
    1 2 (by decide)).1

/-- C10: `apply_page_processing_steps` appends the page number to
`custom_page_processing` unconditionally (source line 432 sits outside the
step loop), so after `_process_page_with_state` the page is always recorded
— also for configurations with no custom page steps — and after a full run
every page `1..total_pages` is in the list. -/
theorem C10_custom_page_processing_unconditional
    (cfg : ProcessingPipelineConfiguration) (outDir : String)
    (O : Nat → PageOracle) (meta : PDFMetadata)
    (diskState : Option PipelineState) (files : PostFiles)
    (postOracle : DocumentContent → PostProcessingContent) :
    (∀ (o : PageOracle) (st : PipelineState) (n : Nat),
      n ∈ (processPageWithState cfg outDir o st n).2.custom_page_processing) ∧
    (∀ doc st, processPdf cfg outDir meta O diskState files postOracle = .ok (doc, st) →
      ∀ n, 1 ≤ n → n ≤ meta.total_pages → n ∈ st.custom_page_processing) := by
  have hstep : ∀ (o : PageOracle) (st : PipelineState) (n : Nat),
      n ∈ (processPageWithState cfg outDir o st n).2.custom_page_processing := by
    intro o st n
    rw [processPageWithState_snd]
    simp
  refine ⟨hstep, ?_⟩
  intro doc st h n h1 h2
  have hin : ∀ k, n ≤ k →
      n ∈ (pageStates cfg outDir O (initialState cfg diskState) k).custom_page_processing := by
    intro k
    induction k with
    | zero => omega
    | succ k ih =>
      intro hk
      rw [pageStates_succ]
      by_cases he : n = k + 1
      · subst he
        exact hstep _ _ _
      · exact ((processPageWithState_state_mono cfg outDir (O (k + 1)) _ (k + 1)).2.2.2.1)
          (ih (by omega))
  rw [(processPdf_ok_state cfg outDir meta O diskState files postOracle h).2.2.2]
  exact hin meta.total_pages h2

/-- Value of a concrete two-page run with no prior state, used by witnesses. -/
def runFresh : Except PyError (DocumentContent × PipelineState) :=
  processPdf cfgW "out" metaW oracleW none filesW postOracleW

/-- Document returned by the concrete fresh run. -/
def docFresh : DocumentContent :=
  match runFresh with
  | .ok r => r.1
  | .error _ => default

/-- Final state returned by the concrete fresh run. -/
def stFresh : PipelineState :=
  match runFresh with
  | .ok r => r.2
  | .error _ => default

theorem runFresh_ok : runFresh = .ok (docFresh, stFresh) := rfl

/-- C10 witness: with no custom page steps configured, page numbers are in
`custom_page_processing` after the page step and after a full run. -/
theorem C10_custom_page_processing_witness :
    1 ∈ (processPageWithState cfgW "out" (oracleW 1) {} 1).2.custom_page_processing ∧
    2 ∈ stFresh.custom_page_processing := by
  have h := C10_custom_page_processing_unconditional cfgW "out" oracleW metaW none
    filesW postOracleW
  exact ⟨h.1 (oracleW 1) {} 1, h.2 docFresh stFresh runFresh_ok 2 (by decide) (by decide)⟩

/-- C6 (amended): provided post-processing still has to run in this
invocation (the loaded state's flag is false) or no `text_twin.md` exists,
the document returned by `process_pdf` has pages `1..total_pages` in
ascending order and `full_text` equal to the newline-join of
`page_text.text` over all pages; for a two-page document this is
`t1 ++ "\n" ++ t2`.  (When the flag is already true and `text_twin.md`
exists, `_load_post_processing_files` overwrites `full_text` with that
file's contents — see the counterexample.) -/
theorem C6_full_text_is_ordered_join (cfg : ProcessingPipelineConfiguration)
    (outDir : String) (meta : PDFMetadata) (O : Nat → PageOracle)
    (diskState : Option PipelineState) (files : PostFiles)
    (postOracle : DocumentContent → PostProcessingContent)
    (hfresh : (initialState cfg diskState).post_processing_done = false ∨
      files.text_twin = none) :
    ∀ doc st, processPdf cfg outDir meta O diskState files postOracle = .ok (doc, st) →
      doc.pages.map PageContent.page_number = List.range' 1 meta.total_pages ∧
      doc.full_text = some (String.intercalate "\n"
        (doc.pages.map (fun p => (p.page_text.map DataUnit.text).getD ""))) ∧
      (meta.total_pages = 2 →
        ∃ p1 p2, doc.pages = [p1, p2] ∧
          doc.full_text = some ((p1.page_text.map DataUnit.text).getD "" ++ "\n" ++
            (p2.page_text.map DataUnit.text).getD "")) := by
  intro doc st h
  have hpages := pageLoop_pages cfg outDir O (initialState cfg diskState) meta.total_pages
  have hft : ((pageLoop cfg outDir O (initialState cfg diskState) meta.total_pages).1.filterMap
      fun p => match p.page_text with
        | some du => if du.text ≠ "" then some du.text else none
        | none => none) =
      (pageLoop cfg outDir O (initialState cfg diskState) meta.total_pages).1.map
        (fun p => (p.page_text.map DataUnit.text).getD "") := by
    apply filterMap_eq_map_of
    intro p hp
    obtain ⟨du, hdu, hne⟩ := hpages.2 p hp
    rw [hdu]
    simp [hne]
  have hmain : doc.pages =
      (pageLoop cfg outDir O (initialState cfg diskState) meta.total_pages).1 ∧
      doc.full_text = some (String.intercalate "\n"
        ((pageLoop cfg outDir O (initialState cfg diskState) meta.total_pages).1.map
          (fun p => (p.page_text.map DataUnit.text).getD ""))) := by
    rw [processPdf] at h
    simp only [] at h
    split at h
    · rw [Except.ok.injEq, Prod.mk.injEq] at h
      rw [← h.1]
      exact ⟨rfl, by rw [saveDocumentContentJson_full_text]; simp only [hft]⟩
    · rename_i hpost
      have hdone : (pageLoop cfg outDir O (initialState cfg diskState)
          meta.total_pages).2.post_processing_done = true := by
        rw [pageLoop_snd, pageStates_post]
        rw [pageLoop_snd, pageStates_post] at hpost
        cases hb : (initialState cfg diskState).post_processing_done with
        | false => exact absurd hb hpost
        | true => rfl
      have htwin : files.text_twin = none := by
        rcases hfresh with hf | hf
        · rw [pageLoop_snd, pageStates_post, hf] at hpost
          exact absurd rfl hpost
        · exact hf
      split at h
      · exact absurd h (fun hh => Except.noConfusion hh)
      · rename_i d' hload
        rw [Except.ok.injEq, Prod.mk.injEq] at h
        obtain ⟨hfull, hpg⟩ := loadPostProcessingFiles_no_twin cfg outDir htwin hload
        rw [← h.1, saveDocumentContentJson_full_text, saveDocumentContentJson_pages,
          hfull, hpg]
        exact ⟨rfl, by simp only [hft]⟩
  have hnum : doc.pages.map PageContent.page_number = List.range' 1 meta.total_pages := by
    rw [hmain.1]
    exact hpages.1
  have hjoin : doc.full_text = some (String.intercalate "\n"
      (doc.pages.map (fun p => (p.page_text.map DataUnit.text).getD ""))) := by
    rw [hmain.1]
    exact hmain.2
  refine ⟨hnum, hjoin, ?_⟩
  intro h2
  have hlen : doc.pages.length = 2 := by
    have := congrArg List.length hnum
    rw [List.length_map, List.length_range'] at this
    omega
  obtain ⟨p1, p2, hpp⟩ : ∃ p1 p2, doc.pages = [p1, p2] := by
    cases hp : doc.pages with
    | nil => rw [hp] at hlen; simp at hlen
    | cons p1 t =>
      cases t with
      | nil => rw [hp] at hlen; simp at hlen
      | cons p2 t2 =>
        cases t2 with
        | nil => exact ⟨p1, p2, rfl⟩
        | cons q t3 => rw [hp] at hlen; simp at hlen
  rw [hpp] at hjoin
  exact ⟨p1, p2, hpp, hjoin⟩

/-- C6 witness: the fresh two-page run produces pages `[1, 2]` and a
`full_text` equal to the newline-join of the two combined page texts. -/
theorem C6_full_text_witness :
    docFresh.pages.map PageContent.page_number = List.range' 1 2 ∧
    docFresh.full_text = some (String.intercalate "\n"
      (docFresh.pages.map (fun p => (p.page_text.map DataUnit.text).getD ""))) ∧
    (∃ p1 p2, docFresh.pages = [p1, p2] ∧
      docFresh.full_text = some ((p1.page_text.map DataUnit.text).getD "" ++ "\n" ++
        (p2.page_text.map DataUnit.text).getD "")) := by
  obtain ⟨h1, h2, h3⟩ := C6_full_text_is_ordered_join cfgW "out" metaW oracleW none
    filesW postOracleW (Or.inl rfl) docFresh stFresh runFresh_ok
  exact ⟨h1, h2, h3 rfl⟩

/-- One-page metadata for the stale-resume counterexample. -/
def metaOne : PDFMetadata :=
  { document_id := "d", document_path := "doc.pdf", filename := "doc.pdf",
    total_pages := 1, output_directory := "out" }

/-- Disk state claiming post-processing already done. -/
def doneState : PipelineState := { post_processing_done := true }

/-- Post-processing artifacts with a stale `text_twin.md` on disk. -/
def staleFiles : PostFiles := { text_twin := some "stale twin" }

/-- Run resumed with `post_processing_done = true` and a stale
`text_twin.md`. -/
def runStale : Except PyError (DocumentContent × PipelineState) :=
  processPdf cfgW "out" metaOne oracleW (some doneState) staleFiles postOracleW

/-- C6 counterexample: on a resumed run whose loaded state has
`post_processing_done = true` and whose output directory holds a
`text_twin.md`, `_load_post_processing_files` (line 550) overwrites
`full_text` with the file contents, so the returned `full_text` is
"stale twin" and differs from the newline-join of the produced pages'
`page_text.text`. -/
theorem C6_counterexample_stale_twin :
    (runStale.map fun r => r.1.full_text) = .ok (some "stale twin") ∧
    (runStale.map fun r => decide (r.1.full_text = some (String.intercalate "\n"
      (r.1.pages.map (fun p => (p.page_text.map DataUnit.text).getD ""))))) =
      .ok false := by
  exact ⟨rfl, rfl⟩

/-! ## `PageContent` save/load round-trip (claim C1)

The filesystem is a finite map from path strings to file contents; a write
replaces the entry in place or appends a new one, like Python's
`open(..., "w")`. -/

/-- Insert-or-replace into a string-keyed association list.  This is also the
semantics of a Python `dict` assignment: an existing key keeps its position
and gets the new value; a new key is appended. -/
def pyDictInsert {α : Type} (m : List (String × α)) (k : String) (v : α) :
    List (String × α) :=
  if m.any (fun e => e.1 = k) then
    m.map (fun e => if e.1 = k then (k, v) else e)
  else m ++ [(k, v)]

/-- `DataUnit.save_to_file` (`data_models.py` lines 156-182): writes
`du.text` to `directory_path/filename` and records `text_file_path`.  The
md5-derived default filename (lines 170-174) is not modelled: every call
made by `PageContent.save_to_directory` passes an explicit filename. -/
def DataUnit.save_to_file (du : DataUnit) (directory_path : String)
    (filename : String) (fs : List (String × String)) :
    List (String × String) × DataUnit × String :=
  let file_path := directory_path ++ "/" ++ filename
  (pyDictInsert fs file_path du.text,
   { du with text_file_path := some file_path }, file_path)

/-- `ExtractedText.save_to_directory` (`data_models.py` lines 335-351). -/
def ExtractedText.save_to_directory (et : ExtractedText) (directory : String)
    (fs : List (String × String)) :
    List (String × String) × ExtractedText × String :=
  let directory_path := directory ++ "/pages/page_" ++ toString et.page_number
  match et.text with
  | some du =>
    let r := du.save_to_file directory_path
      ("page_" ++ toString et.page_number ++ ".txt") fs
    (r.1, { et with text := some r.2.1 }, r.2.2)
  | none => (fs, et, "")

/-- `ExtractedImage.save_to_directory` (`data_models.py` lines 412-429). -/
def ExtractedImage.save_to_directory (img : ExtractedImage) (directory : String)
    (index : Nat) (fs : List (String × String)) :
    List (String × String) × ExtractedImage × String :=
  let images_dir := directory ++ "/pages/page_" ++ toString img.page_number ++ "/images"
  match img.text with
  | some du =>
    let r := du.save_to_file images_dir
      ("page_" ++ toString img.page_number ++ "_" ++ img.image_type ++ "_" ++
        toString (index + 1) ++ ".txt") fs
    (r.1, { img with text := some r.2.1 }, r.2.2)
  | none => (fs, img, "")

/-- `ExtractedTable.save_to_directory` (`data_models.py` lines 492-509). -/
def ExtractedTable.save_to_directory (tbl : ExtractedTable) (directory : String)
    (index : Nat) (fs : List (String × String)) :
    List (String × String) × ExtractedTable × String :=
  let tables_dir := directory ++ "/pages/page_" ++ toString tbl.page_number ++ "/tables"
  match tbl.text with
  | some du =>
    let r := du.save_to_file tables_dir
      ("page_" ++ toString tbl.page_number ++ "_table_" ++
        toString (index + 1) ++ ".txt") fs
    (r.1, { tbl with text := some r.2.1 }, r.2.2)
  | none => (fs, tbl, "")

/-- `PageContent.save_to_directory` (`data_models.py` lines 588-637): text,
images, tables, combined twin text and custom steps in source order, with the
returned `saved_paths` dictionary. -/
def PageContent.save_to_directory (pc : PageContent) (directory : String)
    (fs : List (String × String)) :
    List (String × String) × PageContent × List (String × String) :=
  let page_dir := directory ++ "/pages/page_" ++ toString pc.page_number
  let rText := pc.text.save_to_directory directory fs
  let saved := if rText.2.2 ≠ "" then [("text", rText.2.2)] else []
  let rImgs := pc.images.enum.foldl
    (fun (acc : List (String × String) × List ExtractedImage × List (String × String)) p =>
      let r := p.2.save_to_directory directory p.1 acc.1
      (r.1, acc.2.1 ++ [r.2.1],
       acc.2.2 ++ (if r.2.2 ≠ "" then [("image_" ++ toString p.1, r.2.2)] else [])))
    (rText.1, [], saved)
  let rTbls := pc.tables.enum.foldl
    (fun (acc : List (String × String) × List ExtractedTable × List (String × String)) p =>
      let r := p.2.save_to_directory directory p.1 acc.1
      (r.1, acc.2.1 ++ [r.2.1],
       acc.2.2 ++ (if r.2.2 ≠ "" then [("table_" ++ toString p.1, r.2.2)] else [])))
    (rImgs.1, [], rImgs.2.2)
  let rTwin : List (String × String) × Option DataUnit × List (String × String) :=
    match pc.page_text with
    | some du =>
      let r := du.save_to_file page_dir
        ("page_" ++ toString pc.page_number ++ "_twin.txt") rTbls.1
      (r.1, some r.2.1, rTbls.2.2 ++ [("page_text", r.2.2)])
    | none => (rTbls.1, none, rTbls.2.2)
  let rSteps := pc.custom_page_processing_steps.enum.foldl
    (fun (acc : List (String × String) × List DataUnit × List (String × String)) p =>
      let r := p.2.save_to_file (page_dir ++ "/custom_processing")
        ("page_step_" ++ toString (p.1 + 1) ++ ".txt") acc.1
      (r.1, acc.2.1 ++ [r.2.1],
       acc.2.2 ++ [("custom_step_" ++ toString p.1, r.2.2)]))
    (rTwin.1, [], rTwin.2.2)
  (rSteps.1,
   { pc with
     text := rText.2.1
     images := rImgs.2.1
     tables := rTbls.2.1
     page_text := rTwin.2.1
     custom_page_processing_steps := rSteps.2.1 },
   rSteps.2.2)

/-- `PageContent.load_from_directory` (`data_models.py` lines 639-735).  The
method is declared `@classmethod` with parameters `(cls, directory,
page_number)`, yet its first statement (line 652) evaluates
`self.page_number`; `self` is unbound there, so Python raises `NameError`
before touching the filesystem, on every input.  The remainder of the body
(lines 654-735) is unreachable and therefore not modelled. -/
def PageContent.load_from_directory (_fs : List (String × String))
    (_directory : String) (_page_number : Nat) : Except PyError PageContent :=
  .error .nameError

/-- C1 (code bug): loading a page saved with `save_to_directory` via
`PageContent.load_from_directory` does not return a `PageContent` at all —
every call raises `NameError` because the `@classmethod` references `self`
(line 652), so the claimed round-trip never holds. -/
theorem C1_page_load_after_save_raises (fs : List (String × String))
    (directory : String) (P : PageContent) (n : Nat) :
    PageContent.load_from_directory (P.save_to_directory directory fs).1
      directory n = .error .nameError :=
  rfl

/-! ## Search units and search (`src/search/azure_ai_index_builder.py`,
`src/search/search_data_models.py`) -/

/-- ASCII model of the whitespace stripped by Python `str.strip()`. -/
def isPySpace (c : Char) : Bool :=
  c = ' ' ∨ c = '\t' ∨ c = '\n' ∨ c = '\r' ∨ c.toNat = 11 ∨ c.toNat = 12

/-- Python `str.strip()`. -/
def pyStrip (s : String) : String :=
  ⟨dropTrailing isPySpace (s.data.dropWhile isPySpace)⟩

/-- `SearchUnit` (`search_data_models.py` lines 34-46).  `page_number` is an
`Int` because post-processing units use the reserved numbers `-1`, `-2`,
`-3`; the float vector entries are modelled as rationals. -/
structure SearchUnit where
  metadata : PDFMetadata
  page_number : Int
  page_image_path : String
  unit_type : String
  text_file_cloud_storage_path : Option String := none
  page_image_cloud_storage_path : Option String := none
  text : String
  text_vector : Option (List Rat) := none
deriving DecidableEq, Repr

/-- The `unit_type="text"` search unit of a page, present exactly when the
page's extracted text is non-empty after stripping
(`azure_ai_index_builder.py` lines 430-442). -/
def textUnitsOf (metadata : PDFMetadata) (page : PageContent) : List SearchUnit :=
  match page.text.text with
  | some du =>
    if pyStrip du.text ≠ "" then
      [{ metadata := metadata
         page_number := (page.page_number : Int)
         page_image_path := convert_path page.page_image_path
         unit_type := "text"
         text := du.text
         text_file_cloud_storage_path := du.text_file_cloud_storage_path
         page_image_cloud_storage_path := du.page_image_cloud_storage_path }]
    else []
  | none => []

/-- The `unit_type="image"` search unit of one embedded image, present
exactly when its text is non-empty after stripping (lines 444-457). -/
def imageUnitOf (metadata : PDFMetadata) (page : PageContent)
    (image : ExtractedImage) : List SearchUnit :=
  match image.text with
  | some du =>
    if pyStrip du.text ≠ "" then
      [{ metadata := metadata
         page_number := (page.page_number : Int)
         page_image_path := convert_path page.page_image_path
         unit_type := "image"
         text := du.text
         text_file_cloud_storage_path := du.text_file_cloud_storage_path
         page_image_cloud_storage_path := du.page_image_cloud_storage_path }]
    else []
  | none => []

/-- The `unit_type="table"` search unit of one table, present exactly when
its text is non-empty after stripping (lines 459-472). -/
def tableUnitOf (metadata : PDFMetadata) (page : PageContent)
    (table : ExtractedTable) : List SearchUnit :=
  match table.text with
  | some du =>
    if pyStrip du.text ≠ "" then
      [{ metadata := metadata
         page_number := (page.page_number : Int)
         page_image_path := convert_path page.page_image_path
         unit_type := "table"
         text := du.text
         text_file_cloud_storage_path := du.text_file_cloud_storage_path
         page_image_cloud_storage_path := du.page_image_cloud_storage_path }]
    else []
  | none => []

/-- Loop body of `document_content_to_search_units` for one page: append the
text unit, then the image units, then the table units (lines 429-472). -/
def pageUnitsStep (metadata : PDFMetadata) (acc : List SearchUnit)
    (page : PageContent) : List SearchUnit :=
  let acc := acc ++ textUnitsOf metadata page
  let acc := page.images.foldl
    (fun acc image => acc ++ imageUnitOf metadata page image) acc
  let acc := page.tables.foldl
    (fun acc table => acc ++ tableUnitOf metadata page table) acc
  acc

/-- `DynamicAzureIndexBuilder.document_content_to_search_units`
(`azure_ai_index_builder.py` lines 421-516), written as the source's
accumulating loops: per page a text unit when the stripped extracted text is
non-empty, then one unit per non-blank image, then one per non-blank table;
with `convert_post_processing_units` the three synthetic units follow, and
accessing `doc.post_processing_content` when it is `None` raises
`AttributeError` (line 476-477). -/
def documentContentToSearchUnits (doc : DocumentContent)
    (convert_post_processing_units : Bool) : Except PyError (List SearchUnit) :=
  let metadata := doc.metadata
  let search_units := doc.pages.foldl (pageUnitsStep metadata) []
  if convert_post_processing_units then
    match doc.post_processing_content with
    | none => .error .attributeError
    | some ppc =>
      let u1 := match ppc.condensed_text with
        | some du =>
          if pyStrip du.text ≠ "" then
            [{ metadata := metadata, page_number := -1, page_image_path := "",
               unit_type := "text", text := du.text,
               text_file_cloud_storage_path := du.text_file_cloud_storage_path,
               page_image_cloud_storage_path := du.page_image_cloud_storage_path }]
          else []
        | none => []
      let u2 := match ppc.table_of_contents with
        | some du =>
          if pyStrip du.text ≠ "" then
            [{ metadata := metadata, page_number := -2, page_image_path := "",
               unit_type := "text", text := du.text,
               text_file_cloud_storage_path := du.text_file_cloud_storage_path,
               page_image_cloud_storage_path := du.page_image_cloud_storage_path }]
          else []
        | none => []
      let u3 := match ppc.full_text with
        | some du =>
          if pyStrip du.text ≠ "" then
            [{ metadata := metadata, page_number := -3, page_image_path := "",
               unit_type := "text", text := du.text,
               text_file_cloud_storage_path := du.text_file_cloud_storage_path,
               page_image_cloud_storage_path := du.page_image_cloud_storage_path }]
          else []
        | none => []
      .ok (search_units ++ u1 ++ u2 ++ u3)
  else
    .ok search_units

/-- Search units of one page as the claim words them: the one `text` unit
when the page's extracted text is non-empty after stripping, followed by the
one `image` unit per image with non-blank text, followed by the one `table`
unit per table with non-blank text. -/
def specPageSearchUnits (metadata : PDFMetadata) (page : PageContent) :
    List SearchUnit :=
  textUnitsOf metadata page ++
    page.images.flatMap (imageUnitOf metadata page) ++
    page.tables.flatMap (tableUnitOf metadata page)

/-- `query_type` values of `SearchParams`
(`search_data_models.py` line 24: `Literal["semantic", "keyword"]`). -/
inductive QueryTypeLit where
  | semantic
  | keyword
deriving DecidableEq, Repr, Inhabited

/-- The service-side `QueryType` enum values used by `hybrid_search`. -/
inductive AzQueryType where
  | semantic
  | simple
deriving DecidableEq, Repr

/-- `SearchParams` (`search_data_models.py` lines 18-26). -/
structure SearchParams where
  search_mode : String := "hybrid"
  vector_fields : String := "text_vector"
  unit_type : Option String := none
  top : Nat := 3
  top_wide_search : Nat := 3
  exhaustive : Bool := false
  query_type : QueryTypeLit := .semantic
  use_code_interpreter : Bool := true
deriving DecidableEq, Repr, Inhabited

/-- The vectorizable text query constructed by `hybrid_search`
(`azure_ai_index_builder.py` lines 310-315). -/
structure VectorizableTextQuery where
  text : String
  k_nearest_neighbors : Nat
  fields : String
  exhaustive : Bool
deriving DecidableEq, Repr

/-- The search request issued by `hybrid_search`
(`azure_ai_index_builder.py` lines 317-324). -/
structure SearchRequest where
  search_text : String
  vector_queries : Option (List VectorizableTextQuery)
  filter : Option String
  top : Nat
  semantic_configuration_name : String
  query_type : AzQueryType
deriving DecidableEq, Repr

/-- A single-quote character, for the `unit_type eq '{...}'` filter literal. -/
def sq : String := String.singleton (Char.ofNat 39)

/-- Request construction of `DynamicAzureIndexBuilder.hybrid_search`
(`azure_ai_index_builder.py` lines 289-324): the vectorizable query is built
only when no caller-supplied vector query exists *and*
`search_params.query_type == "semantic"` (line 309). -/
def hybridSearchRequest (query : String)
    (vector_query : Option VectorizableTextQuery)
    (search_params : SearchParams) : SearchRequest :=
  let vq := if vector_query = none ∧ search_params.query_type = .semantic then
      some { text := query, k_nearest_neighbors := 50,
             fields := search_params.vector_fields,
             exhaustive := search_params.exhaustive }
    else vector_query
  { search_text := query
    vector_queries := vq.map (fun v => [v])
    filter := search_params.unit_type.map (fun u => "unit_type eq " ++ sq ++ u ++ sq)
    top := search_params.top
    semantic_configuration_name := "my-semantic-config"
    query_type := if search_params.query_type = .semantic then .semantic else .simple }

/-- One result row returned by the search service. -/
structure SearchResult where
  index_id : String
  payload : String
deriving DecidableEq, Repr

/-- Model of the external search client (out of scope per the spec): an
oracle gives the service's full ranked result list for a request, of which
the service returns the top `req.top`. -/
def searchService (oracle : SearchRequest → List SearchResult)
    (req : SearchRequest) : List SearchResult :=
  (oracle req).take req.top

/-- `DynamicAzureIndexBuilder.hybrid_search` (lines 289-328): issue the
request and collect the returned rows. -/
def hybrid_search (oracle : SearchRequest → List SearchResult) (query : String)
    (vector_query : Option VectorizableTextQuery)
    (search_params : SearchParams) : List SearchResult :=
  searchService oracle (hybridSearchRequest query vector_query search_params)

/-- `DynamicAzureIndexBuilder.widen_step_search` (lines 332-359): a keyword
pass followed by a semantic pass of `hybrid_search`, concatenated. -/
def widen_step_search (oracle : SearchRequest → List SearchResult)
    (query : String) (search_params : SearchParams) : List SearchResult :=
  hybrid_search oracle query none { search_params with query_type := .keyword } ++
  hybrid_search oracle query none { search_params with query_type := .semantic }

/-- `SearchExpansion` (`search_data_models.py` lines 29-31). -/
structure SearchExpansion where
  expanded_terms : List String
  related_areas : List String
deriving DecidableEq, Repr

/-- `self.search_clients` holds 25 pre-constructed clients
(`azure_ai_index_builder.py` lines 106-110); `zip` with
`self.search_clients[:len(search_terms)]` in `widen_search` truncates the
term list to at most 25 entries. -/
def numSearchClients : Nat := 25

/-- The query set of `widen_search` (line 380): the original query, then the
first `top_wide_search` expanded terms, then the first `top_wide_search`
related areas. -/
def wideSearchTerms (query : String) (expansion : SearchExpansion)
    (p : SearchParams) : List String :=
  [query] ++ expansion.expanded_terms.take p.top_wide_search ++
    expansion.related_areas.take p.top_wide_search

/-- The concatenated per-query result streams of `widen_search`
(lines 381-386), in term order as produced by `pool.starmap`. -/
def wideCompositeResults (oracle : SearchRequest → List SearchResult)
    (query : String) (expansion : SearchExpansion) (p : SearchParams) :
    List SearchResult :=
  ((wideSearchTerms query expansion p).take numSearchClients).flatMap
    (fun t => widen_step_search oracle t p)

/-- `DynamicAzureIndexBuilder.widen_search` (lines 362-392): deduplication by
`index_id` via the Python dict comprehension of line 389 (first-seen key
order, last-seen value). -/
def widen_search (oracle : SearchRequest → List SearchResult) (query : String)
    (expansion : SearchExpansion) (p : SearchParams) : List SearchResult :=
  ((wideCompositeResults oracle query expansion p).foldl
    (fun m r => pyDictInsert m r.index_id r) []).map (fun e => e.2)

/-- First-occurrence deduplication, the order notion of the claim. -/
def firstDedup {α : Type} [DecidableEq α] (l : List α) : List α :=
  l.foldl (fun acc a => if a ∈ acc then acc else acc ++ [a]) []

/-! ### Claim C4: hybrid search without a semantic query type -/

/-- Parameters with `query_type = "keyword"`. -/
def paramsKeyword : SearchParams := { query_type := .keyword }

/-- C4 counterexample: with `query_type = "keyword"` and no caller-supplied
vector query, the request issued by `hybrid_search` carries *no* vector query
at all (and is a simple query), refuting the claim that it is still combined
with a vector query over `params.vector_fields`. -/
theorem C4_counterexample_keyword_request :
    (hybridSearchRequest "quarterly revenue growth" none paramsKeyword).vector_queries =
      none ∧
    (hybridSearchRequest "quarterly revenue growth" none paramsKeyword).query_type =
      .simple :=
  ⟨rfl, rfl⟩

/-- C4 (amended): when `query_type ≠ semantic` and the caller supplies no
vector query, `hybrid_search` issues a purely keyword `simple` request with
no vector query; the vectorizable query over `params.vector_fields` (k = 50)
is attached automatically only when `query_type = semantic`. -/
theorem C4_vector_query_only_when_semantic (query : String) (p : SearchParams) :
    (p.query_type = .keyword →
      (hybridSearchRequest query none p).vector_queries = none ∧
      (hybridSearchRequest query none p).query_type = .simple ∧
      (hybridSearchRequest query none p).search_text = query ∧
      (hybridSearchRequest query none p).top = p.top) ∧
    (p.query_type = .semantic →
      (hybridSearchRequest query none p).vector_queries =
        some [{ text := query, k_nearest_neighbors := 50, fields := p.vector_fields,
                exhaustive := p.exhaustive }] ∧
      (hybridSearchRequest query none p).query_type = .semantic) := by
  constructor
  · intro h
    simp [hybridSearchRequest, h]
  · intro h
    simp [hybridSearchRequest, h]

/-- C4 witness: both directions of the amended statement at concrete
parameters. -/
theorem C4_vector_query_only_when_semantic_witness :
    (hybridSearchRequest "q" none paramsKeyword).vector_queries = none ∧
    (hybridSearchRequest "q" none { query_type := .semantic }).vector_queries =
      some [{ text := "q", k_nearest_neighbors := 50, fields := "text_vector",
              exhaustive := false }] :=
  ⟨((C4_vector_query_only_when_semantic "q" paramsKeyword).1 rfl).1,
   ((C4_vector_query_only_when_semantic "q" { query_type := .semantic }).2 rfl).1⟩

/-! ### Claim C5: the search-unit projection -/

theorem foldl_append_eq {α β : Type} (f : α → List β) :
    ∀ (l : List α) (acc : List β),
      l.foldl (fun acc x => acc ++ f x) acc = acc ++ l.flatMap f
  | [], acc => by simp
  | x :: l, acc => by
    rw [List.foldl_cons, foldl_append_eq f l (acc ++ f x), List.flatMap_cons,
      List.append_assoc]

theorem pageUnitsStep_eq (metadata : PDFMetadata) (acc : List SearchUnit)
    (page : PageContent) :
    pageUnitsStep metadata acc page = acc ++ specPageSearchUnits metadata page := by
  rw [pageUnitsStep, specPageSearchUnits]
  rw [foldl_append_eq (imageUnitOf metadata page),
    foldl_append_eq (tableUnitOf metadata page)]
  simp [List.append_assoc]

theorem foldl_pageUnitsStep_eq (metadata : PDFMetadata) :
    ∀ (pages : List PageContent) (acc : List SearchUnit),
      pages.foldl (pageUnitsStep metadata) acc =
        acc ++ pages.flatMap (specPageSearchUnits metadata)
  | [], acc => by simp
  | p :: pages, acc => by
    rw [List.foldl_cons, pageUnitsStep_eq, foldl_pageUnitsStep_eq metadata pages _,
      List.flatMap_cons, List.append_assoc]

theorem textUnitsOf_page_number (metadata : PDFMetadata) (page : PageContent) :
    ∀ u ∈ textUnitsOf metadata page, u.page_number = (page.page_number : Int) := by
  intro u hu
  rw [textUnitsOf] at hu
  split at hu
  · split at hu
    · rw [List.mem_singleton] at hu
      subst hu
      rfl
    · simp at hu
  · simp at hu

theorem imageUnitOf_page_number (metadata : PDFMetadata) (page : PageContent)
    (image : ExtractedImage) :
    ∀ u ∈ imageUnitOf metadata page image, u.page_number = (page.page_number : Int) := by
  intro u hu
  rw [imageUnitOf] at hu
  split at hu
  · split at hu
    · rw [List.mem_singleton] at hu
      subst hu
      rfl
    · simp at hu
  · simp at hu

theorem tableUnitOf_page_number (metadata : PDFMetadata) (page : PageContent)
    (table : ExtractedTable) :
    ∀ u ∈ tableUnitOf metadata page table, u.page_number = (page.page_number : Int) := by
  intro u hu
  rw [tableUnitOf] at hu
  split at hu
  · split at hu
    · rw [List.mem_singleton] at hu
      subst hu
      rfl
    · simp at hu
  · simp at hu

theorem specPageSearchUnits_page_number (metadata : PDFMetadata) (page : PageContent) :
    ∀ u ∈ specPageSearchUnits metadata page, u.page_number = (page.page_number : Int) := by
  intro u hu
  rw [specPageSearchUnits] at hu
  rcases List.mem_append.mp hu with hu | hu
  · rcases List.mem_append.mp hu with hu | hu
    · exact textUnitsOf_page_number metadata page u hu
    · obtain ⟨img, _, hmem⟩ := List.mem_flatMap.mp hu
      exact imageUnitOf_page_number metadata page img u hmem
  · obtain ⟨tbl, _, hmem⟩ := List.mem_flatMap.mp hu
    exact tableUnitOf_page_number metadata page tbl u hmem

theorem sorted_of_all_eq (c : Int) :
    ∀ {l : List Int}, (∀ x ∈ l, x = c) → l.Sorted (· ≤ ·)
  | [], _ => List.sorted_nil
  | a :: l, h => by
    rw [List.sorted_cons]
    refine ⟨?_, sorted_of_all_eq c (fun x hx => h x (by simp [hx]))⟩
    intro b hb
    rw [h a (by simp), h b (by simp [hb])]

theorem sorted_flatMap_of_sorted_pages (metadata : PDFMetadata) :
    ∀ (pages : List PageContent),
      List.Sorted (· ≤ ·) (pages.map (fun p => (p.page_number : Int))) →
      List.Sorted (· ≤ ·)
        ((pages.flatMap (specPageSearchUnits metadata)).map SearchUnit.page_number)
  | [], _ => by simp
  | p :: pages, h => by
    rw [List.map_cons, List.sorted_cons] at h
    rw [List.flatMap_cons, List.map_append]
    refine List.pairwise_append.mpr
      ⟨?_, sorted_flatMap_of_sorted_pages metadata pages h.2, ?_⟩
    · apply sorted_of_all_eq ((p.page_number : Int))
      intro x hx
      obtain ⟨u, hu, rfl⟩ := List.mem_map.mp hx
      exact specPageSearchUnits_page_number metadata p u hu
    · intro a ha b hb
      obtain ⟨u, hu, rfl⟩ := List.mem_map.mp ha
      obtain ⟨v, hv, rfl⟩ := List.mem_map.mp hb
      obtain ⟨q, hq, hvq⟩ := List.mem_flatMap.mp hv
      rw [specPageSearchUnits_page_number metadata p u hu,
        specPageSearchUnits_page_number metadata q v hvq]
      exact h.1 _ (List.mem_map.mpr ⟨q, hq, rfl⟩)

/-- C5 (amended): `document_content_to_search_units` (without
post-processing units) emits, per page in the order of the document's pages
list, exactly one `text` unit when the page's extracted text is non-empty
after stripping, then one `image` unit per image with non-blank text, then
one `table` unit per table with non-blank text; consequently the units'
page numbers are ascending whenever the document's pages are listed in
ascending page order (as the pipeline produces them).  A page with blank
extracted text contributes no text unit but still its image and table
units. -/
theorem C5_search_unit_projection :
    (∀ doc : DocumentContent, documentContentToSearchUnits doc false =
      .ok (doc.pages.flatMap (specPageSearchUnits doc.metadata))) ∧
    (∀ doc : DocumentContent,
      List.Sorted (· ≤ ·) (doc.pages.map (fun p => (p.page_number : Int))) →
      List.Sorted (· ≤ ·)
        ((doc.pages.flatMap (specPageSearchUnits doc.metadata)).map
          SearchUnit.page_number)) := by
  constructor
  · intro doc
    rw [documentContentToSearchUnits]
    simp only [Bool.false_eq_true, if_false, foldl_pageUnitsStep_eq, List.nil_append]
  · intro doc h
    exact sorted_flatMap_of_sorted_pages doc.metadata doc.pages h

/-- Metadata for the C5 concrete documents. -/
def metaC5 : PDFMetadata :=
  { document_id := "d", document_path := "p.pdf", filename := "p.pdf",
    total_pages := 2, output_directory := "out" }

/-- A page with non-blank extracted text and no images or tables. -/
def pageC5 (n : Nat) : PageContent :=
  { page_number := n
    text := { page_number := n, text := some { text := "text " ++ toString n } }
    page_image_path := "img.png"
    images := []
    tables := [] }

/-- Document whose pages list is in descending page order. -/
def docC5 : DocumentContent := { metadata := metaC5, pages := [pageC5 2, pageC5 1] }

/-- The same document with ascending pages. -/
def docC5sorted : DocumentContent :=
  { metadata := metaC5, pages := [pageC5 1, pageC5 2] }

/-- C5 counterexample: on a `DocumentContent` whose pages list is
`[page 2, page 1]`, the emitted units carry page numbers `[2, 1]` — the
function follows the pages-list order, so units are not in ascending page
order for every `DocumentContent`. -/
theorem C5_counterexample_descending_pages :
    (documentContentToSearchUnits docC5 false).map (List.map SearchUnit.page_number) =
      .ok [2, 1] ∧
    ¬ List.Sorted (· ≤ ·) ([2, 1] : List Int) := by
  constructor
  · rfl
  · decide

/-- C5 witness: the characterization and the ascending-order consequence at a
concrete two-page document with ascending pages. -/
theorem C5_search_unit_projection_witness :
    documentContentToSearchUnits docC5sorted false =
      .ok (docC5sorted.pages.flatMap (specPageSearchUnits docC5sorted.metadata)) ∧
    List.Sorted (· ≤ ·) ((docC5sorted.pages.flatMap
      (specPageSearchUnits docC5sorted.metadata)).map SearchUnit.page_number) :=
  ⟨C5_search_unit_projection.1 docC5sorted,
   C5_search_unit_projection.2 docC5sorted (by decide)⟩

/-! ### Claim C7: wide-search deduplication -/

theorem pyDictInsert_keys {α : Type} (m : List (String × α)) (k : String) (v : α) :
    (pyDictInsert m k v).map (fun e => e.1) =
      if k ∈ m.map (fun e => e.1) then m.map (fun e => e.1)
      else m.map (fun e => e.1) ++ [k] := by
  rw [pyDictInsert]
  by_cases h : m.any (fun e => e.1 = k) = true
  · rw [if_pos h]
    have hk : k ∈ m.map (fun e => e.1) := by
      obtain ⟨e, he, heq⟩ := List.any_eq_true.mp h
      simp only [decide_eq_true_eq] at heq
      exact List.mem_map.mpr ⟨e, he, heq⟩
    rw [if_pos hk, List.map_map]
    apply List.map_congr_left
    intro e _
    by_cases he : e.1 = k
    · simp [Function.comp, he]
    · simp [Function.comp, he]
  · rw [if_neg h, List.map_append]
    have hk : k ∉ m.map (fun e => e.1) := by
      intro hmem
      obtain ⟨e, he, heq⟩ := List.mem_map.mp hmem
      exact h (List.any_eq_true.mpr ⟨e, he, by simp [heq]⟩)
    rw [if_neg hk]
    rfl

theorem pyDictInsert_value_inv {m : List (String × SearchResult)} {k : String}
    {v : SearchResult} (hm : ∀ e ∈ m, e.2.index_id = e.1) (hv : v.index_id = k) :
    ∀ e ∈ pyDictInsert m k v, e.2.index_id = e.1 := by
  intro e he
  rw [pyDictInsert] at he
  split at he
  · obtain ⟨e0, he0, heq⟩ := List.mem_map.mp he
    by_cases h0 : e0.1 = k
    · rw [if_pos h0] at heq
      rw [← heq]
      exact hv
    · rw [if_neg h0] at heq
      rw [← heq]
      exact hm e0 he0
  · rcases List.mem_append.mp he with h0 | h0
    · exact hm e h0
    · rw [List.mem_singleton] at h0
      subst h0
      exact hv

theorem dict_fold_value_inv :
    ∀ (l : List SearchResult) (m : List (String × SearchResult)),
      (∀ e ∈ m, e.2.index_id = e.1) →
      ∀ e ∈ l.foldl (fun m r => pyDictInsert m r.index_id r) m, e.2.index_id = e.1
  | [], m, hm => hm
  | r :: l, m, hm => by
    rw [List.foldl_cons]
    exact dict_fold_value_inv l _ (pyDictInsert_value_inv hm rfl)

theorem dict_fold_keys :
    ∀ (l : List SearchResult) (m : List (String × SearchResult)),
      (l.foldl (fun m r => pyDictInsert m r.index_id r) m).map (fun e => e.1) =
        l.foldl (fun acc r =>
          if r.index_id ∈ acc then acc else acc ++ [r.index_id])
          (m.map (fun e => e.1))
  | [], m => rfl
  | r :: l, m => by
    rw [List.foldl_cons, List.foldl_cons, dict_fold_keys l _, pyDictInsert_keys]

theorem firstDedup_aux_nodup {α : Type} [DecidableEq α] :
    ∀ (l : List α) (acc : List α), acc.Nodup →
      (l.foldl (fun acc a => if a ∈ acc then acc else acc ++ [a]) acc).Nodup
  | [], _, h => h
  | a :: l, acc, h => by
    rw [List.foldl_cons]
    by_cases ha : a ∈ acc
    · rw [if_pos ha]
      exact firstDedup_aux_nodup l acc h
    · rw [if_neg ha]
      refine firstDedup_aux_nodup l _ (List.nodup_append.mpr
        ⟨h, List.nodup_singleton a, ?_⟩)
      intro x hx hxa
      rw [List.mem_singleton] at hxa
      subst hxa
      exact ha hx

theorem firstDedup_aux_length {α : Type} [DecidableEq α] :
    ∀ (l : List α) (acc : List α),
      (l.foldl (fun acc a => if a ∈ acc then acc else acc ++ [a]) acc).length ≤
        acc.length + l.length
  | [], acc => by simp
  | a :: l, acc => by
    rw [List.foldl_cons]
    by_cases ha : a ∈ acc
    · rw [if_pos ha]
      have := firstDedup_aux_length l acc
      simp only [List.length_cons]
      omega
    · rw [if_neg ha]
      have h2 := firstDedup_aux_length l (acc ++ [a])
      rw [List.length_append] at h2
      have h3 : ([a] : List α).length = 1 := rfl
      rw [h3] at h2
      rw [List.length_cons]
      omega

theorem widen_search_ids (oracle : SearchRequest → List SearchResult)
    (query : String) (expansion : SearchExpansion) (p : SearchParams) :
    (widen_search oracle query expansion p).map SearchResult.index_id =
      ((wideCompositeResults oracle query expansion p).foldl
        (fun m r => pyDictInsert m r.index_id r) []).map (fun e => e.1) := by
  rw [widen_search, List.map_map]
  apply List.map_congr_left
  intro e he
  exact dict_fold_value_inv _ [] (by simp) e he

theorem flatMap_length_le {α β : Type} (f : α → List β) (b : Nat) :
    ∀ l : List α, (∀ a ∈ l, (f a).length ≤ b) →
      (l.flatMap f).length ≤ l.length * b
  | [], _ => by simp
  | a :: l, h => by
    rw [List.flatMap_cons, List.length_append, List.length_cons, Nat.succ_mul]
    have h1 := h a (by simp)
    have h2 := flatMap_length_le f b l (fun x hx => h x (by simp [hx]))
    omega

theorem widen_step_search_length_le (oracle : SearchRequest → List SearchResult)
    (t : String) (p : SearchParams) :
    (widen_step_search oracle t p).length ≤ 2 * p.top := by
  rw [widen_step_search, List.length_append]
  have h1 : (hybrid_search oracle t none { p with query_type := .keyword }).length ≤
      p.top := by
    rw [hybrid_search, searchService]
    exact List.length_take_le _ _
  have h2 : (hybrid_search oracle t none { p with query_type := .semantic }).length ≤
      p.top := by
    rw [hybrid_search, searchService]
    exact List.length_take_le _ _
  omega

theorem wideSearchTerms_length_le (query : String) (expansion : SearchExpansion)
    (p : SearchParams) :
    (wideSearchTerms query expansion p).length ≤ 1 + 2 * p.top_wide_search := by
  rw [wideSearchTerms]
  simp only [List.length_append, List.length_cons, List.length_nil, List.length_take]
  omega

/-- C7: `wide_search` returns no two results with the same `index_id`, the
returned `index_id`s are exactly the first-occurrence deduplication of the
concatenated per-query result streams (first-seen order), and the result
count is at most `top * (2 * (1 + 2 * top_wide_search))`. -/
theorem C7_wide_search_dedup (oracle : SearchRequest → List SearchResult)
    (query : String) (expansion : SearchExpansion) (p : SearchParams) :
    ((widen_search oracle query expansion p).map SearchResult.index_id).Nodup ∧
    (widen_search oracle query expansion p).map SearchResult.index_id =
      firstDedup ((wideCompositeResults oracle query expansion p).map
        SearchResult.index_id) ∧
    (widen_search oracle query expansion p).length ≤
      p.top * (2 * (1 + 2 * p.top_wide_search)) := by
  have h2 : (widen_search oracle query expansion p).map SearchResult.index_id =
      firstDedup ((wideCompositeResults oracle query expansion p).map
        SearchResult.index_id) := by
    rw [widen_search_ids, dict_fold_keys, firstDedup, List.foldl_map]
    rfl
  refine ⟨?_, h2, ?_⟩
  · rw [h2]
    exact firstDedup_aux_nodup _ [] List.nodup_nil
  · have hlen : (widen_search oracle query expansion p).length =
        (firstDedup ((wideCompositeResults oracle query expansion p).map
          SearchResult.index_id)).length := by
      rw [← h2, List.length_map]
    have hded : (firstDedup ((wideCompositeResults oracle query expansion p).map
        SearchResult.index_id)).length ≤
        (wideCompositeResults oracle query expansion p).length := by
      have := firstDedup_aux_length ((wideCompositeResults oracle query expansion
        p).map SearchResult.index_id) []
      rw [List.length_map] at this
      simpa using this
    have hcomp : (wideCompositeResults oracle query expansion p).length ≤
        (1 + 2 * p.top_wide_search) * (2 * p.top) := by
      rw [wideCompositeResults]
      have hfm := flatMap_length_le (fun t => widen_step_search oracle t p)
        (2 * p.top) ((wideSearchTerms query expansion p).take numSearchClients)
        (fun t _ => widen_step_search_length_le oracle t p)
      have hterms : ((wideSearchTerms query expansion p).take
          numSearchClients).length ≤ 1 + 2 * p.top_wide_search := by
        rw [List.length_take]
        exact le_trans (Nat.min_le_right _ _)
          (wideSearchTerms_length_le query expansion p)
      calc (((wideSearchTerms query expansion p).take numSearchClients).flatMap
            (fun t => widen_step_search oracle t p)).length ≤
            ((wideSearchTerms query expansion p).take numSearchClients).length *
              (2 * p.top) := hfm
        _ ≤ (1 + 2 * p.top_wide_search) * (2 * p.top) :=
            Nat.mul_le_mul_right _ hterms
    have hbound : (1 + 2 * p.top_wide_search) * (2 * p.top) =
        p.top * (2 * (1 + 2 * p.top_wide_search)) := by ring
    omega

end MmDocProc
